/-
Verification of the netbox-incus-sync reconciliation engine.

This file gives a shallow embedding, in Lean 4, of the parts of the
repository that the checked properties talk about:

  * services/sync_utils.py     (parse_memory / parse_size)
  * services/sync_instances.py (find_existing_vm, sync_instance, handle_deletions)
  * services/sync_network.py   (primary candidate tracking, _set_primary_ips)
  * services/sync_disks.py     (_get_disk_size and its lookup chain)
  * services/sync_events.py    (journal creation and deduplication)
  * jobs.py                    (per-host orchestration and error isolation)

Modelling conventions:
  * Django model rows become Lean structures; the database becomes a
    `List` of rows; `obj.save()` becomes replacing the row with the same
    primary key; `obj.delete()` becomes removing the row with that key.
  * Python `None`/absent dict keys become `Option`; Python truthiness of a
    value is spelled out at each use site exactly as the source tests it.
  * Python floats are modelled as exact rationals, kept as an unreduced
    numerator/denominator pair so that all arithmetic is plain `Int`/`Nat`
    arithmetic; `int(x)` is truncation toward zero (`Int.tdiv`).
  * Strings are manipulated through their character lists (`String.data`)
    so that every operation is structurally recursive.
  * Incus client calls that can only return data or `None` (they never
    raise, see incus_client.get_storage_volume) are modelled as
    function-valued parameters returning `Option`.
-/
import Mathlib

namespace IncusSync

/-! ### Python string primitives (character-list level)

Python `str.upper`, `str.strip`, `str.endswith` and slicing, restricted
to the ASCII strings that appear in Incus size/identity data. -/

/-- Python `str.upper()` (ASCII). -/
def pyUpper (cs : List Char) : List Char :=
  cs.map Char.toUpper

/-- Python `str.strip()`: drop leading and trailing whitespace. -/
def pyStrip (cs : List Char) : List Char :=
  ((cs.dropWhile Char.isWhitespace).reverse.dropWhile Char.isWhitespace).reverse

/-- Python `value.endswith(sfx)`. -/
def pyEndsWith (cs sfx : List Char) : Bool :=
  sfx.reverse.isPrefixOf cs.reverse

/-- Python slicing `value[:-n]`. -/
def pyDropRight (cs : List Char) (n : ℕ) : List Char :=
  cs.take (cs.length - n)

/-! ### Python numeric-string parsing (subset)

`parse_memory` in sync_utils.py calls Python's `float()` and `int()` on
the prefix of the input.  We model the common decimal subset: an optional
sign, decimal digits, and (for `float()`) an optional single fractional
point.  Exponents, `inf`/`nan` and underscore separators are outside the
modelled subset.  A parsed float is the exact rational `num / den`
(`den > 0`), kept unreduced. -/

/-- Numeric value of a list of decimal digit characters. -/
def digitsVal (cs : List Char) : ℕ :=
  cs.foldl (fun a c => a * 10 + (c.toNat - 48)) 0

/-- Modelled subset of Python `float(s)`: optional sign, then digits with
an optional fractional part (`"4"`, `"4.5"`, `".5"`, `"4."`, `"+1"`,
`"-2.25"`).  The result is the exact value as a numerator/denominator
pair. -/
def pyFloat? (cs : List Char) : Option (ℤ × ℕ) :=
  let sign : ℤ := match cs with
    | '-' :: _ => -1
    | _ => 1
  let ds := match cs with
    | '+' :: rest => rest
    | '-' :: rest => rest
    | _ => cs
  let intPart := ds.takeWhile Char.isDigit
  let rest := ds.dropWhile Char.isDigit
  match rest with
  | [] =>
    if intPart.isEmpty then none
    else some (sign * (digitsVal intPart : ℤ), 1)
  | '.' :: frac =>
    if frac.all Char.isDigit && (!intPart.isEmpty || !frac.isEmpty) then
      some (sign * ((digitsVal intPart * 10 ^ frac.length + digitsVal frac : ℕ) : ℤ),
        10 ^ frac.length)
    else none
  | _ => none

/-- Modelled subset of Python `int(s)`: optional sign followed by decimal
digits. -/
def pyInt? (cs : List Char) : Option ℤ :=
  let sign : ℤ := match cs with
    | '-' :: _ => -1
    | _ => 1
  let ds := match cs with
    | '+' :: rest => rest
    | '-' :: rest => rest
    | _ => cs
  if ds.isEmpty || !ds.all Char.isDigit then none
  else some (sign * (digitsVal ds : ℤ))

/-- Python `int(x)` applied to the exact rational `n / d` (`d > 0`):
truncation toward zero. -/
def pyTrunc (n : ℤ) (d : ℕ) : ℤ :=
  Int.tdiv n d

/-- `parse_memory` from services/sync_utils.py.

```python
if not value: return None
try:
    value = str(value).upper().strip()
    if value.endswith('GIB'):   return int(float(value[:-3]) * 1024)
    elif value.endswith('GB'):  return int(float(value[:-2]) * 1024)
    elif value.endswith('MIB'): return int(float(value[:-3]))
    elif value.endswith('MB'):  return int(float(value[:-2]))
    elif value.endswith('KIB'): return int(float(value[:-3]) / 1024)
    elif value.endswith('KB'):  return int(float(value[:-2]) / 1024)
    else:                       return int(int(value) / (1024 * 1024))
except (ValueError, TypeError): return None
```

The `None` argument and the empty string are the falsy string-typed
inputs of the source; a failing `float()`/`int()` call is the `none` case
of `pyFloat?`/`pyInt?`. -/
def parse_memory (value : Option String) : Option ℤ :=
  match value with
  | none => none
  | some s =>
    if s = "" then none
    else
      let v := pyStrip (pyUpper s.data)
      if pyEndsWith v ['G', 'I', 'B'] then
        (pyFloat? (pyDropRight v 3)).map (fun p => pyTrunc (p.1 * 1024) p.2)
      else if pyEndsWith v ['G', 'B'] then
        (pyFloat? (pyDropRight v 2)).map (fun p => pyTrunc (p.1 * 1024) p.2)
      else if pyEndsWith v ['M', 'I', 'B'] then
        (pyFloat? (pyDropRight v 3)).map (fun p => pyTrunc p.1 p.2)
      else if pyEndsWith v ['M', 'B'] then
        (pyFloat? (pyDropRight v 2)).map (fun p => pyTrunc p.1 p.2)
      else if pyEndsWith v ['K', 'I', 'B'] then
        (pyFloat? (pyDropRight v 3)).map (fun p => pyTrunc p.1 (p.2 * 1024))
      else if pyEndsWith v ['K', 'B'] then
        (pyFloat? (pyDropRight v 2)).map (fun p => pyTrunc p.1 (p.2 * 1024))
      else
        (pyInt? v).map (fun n => pyTrunc n (1024 * 1024))

/-- `parse_size` from services/sync_utils.py: an alias of `parse_memory`. -/
def parse_size (value : Option String) : Option ℤ :=
  parse_memory value

example : parse_memory (some "4GiB") = some 4096 := by decide
example : parse_memory (some "512MiB") = some 512 := by decide
example : parse_memory (some "2048") = some 0 := by decide
example : parse_memory (some "abc") = none := by decide
example : parse_memory (some "") = none := by decide
example : parse_memory none = none := by decide
example : parse_memory (some "1.5gb") = some 1536 := by decide
example : parse_memory (some "2048KiB") = some 2 := by decide
example : parse_memory (some "-2097153") = some (-2) := by decide

/-! ### Network reconciliation: interface iteration and primary candidates

From services/sync_network.py.  `sync_instance_network` walks the
instance's network state map (`for iface_name, iface_data in
network_state.items()`), skips the loopback interface, syncs each
interface's addresses (`_sync_interface_ips`) and keeps the first global
IPv4/IPv6 address encountered as the primary candidate of its family.
A Python dict iterates in insertion order, so the state map is modelled
as an association list in presentation order. -/

/-- One entry of an interface's `addresses` list in the Incus network
state (`address`, `netmask`, `scope`, `family`). -/
structure AddrInfo where
  address : String
  netmask : String
  scope : String
  family : String
deriving DecidableEq

/-- The per-interface slice of the Incus network state used by the
candidate tracking: its `addresses` list. -/
structure IfaceData where
  addresses : List AddrInfo
deriving DecidableEq

/-- The candidate/count core of `_sync_interface_ips`: walk the
addresses in order, skip link-local/loopback scopes and entries missing
an address or netmask, build the CIDR string, and remember the first
IPv4 and first IPv6 so synced.  The store upsert `_sync_ip_address`
always yields the address row in this model, so every retained entry
counts. -/
def sync_interface_ips : List AddrInfo → Option String × Option String × ℕ
  | [] => (none, none, 0)
  | a :: rest =>
    if a.scope = "link" ∨ a.scope = "local" then sync_interface_ips rest
    else if a.address = "" ∨ a.netmask = "" then sync_interface_ips rest
    else
      let cidr := a.address ++ "/" ++ a.netmask
      let r := sync_interface_ips rest
      ((if a.family = "inet" then some cidr else r.1),
       (if a.family = "inet6" then some cidr else r.2.1),
       r.2.2 + 1)

/-- The primary-candidate tracking of `sync_instance_network`: iterate
the interfaces in the order the state map presents them, skip `lo`, and
keep the first IPv4 and first IPv6 candidate found. -/
def primary_candidates : List (String × IfaceData) → Option String × Option String
  | [] => (none, none)
  | (name, ifd) :: rest =>
    if name = "lo" then primary_candidates rest
    else
      let i := sync_interface_ips ifd.addresses
      let r := primary_candidates rest
      ((i.1 <|> r.1), (i.2.1 <|> r.2))

/-- Spec-side description: the qualifying ("global") CIDR strings of one
family on a single interface, in presentation order — addresses whose
scope is not link/local and whose address and netmask are present. -/
def addr_cidrs (fam : String) (ads : List AddrInfo) : List String :=
  (ads.filter (fun a =>
    ¬(a.scope = "link" ∨ a.scope = "local") ∧ a.address ≠ "" ∧ a.netmask ≠ ""
      ∧ a.family = fam)).map
    (fun a => a.address ++ "/" ++ a.netmask)

/-- Spec-side description: the qualifying CIDR strings of one family
across the whole state map, in the presentation order of the map,
skipping the loopback interface. -/
def global_addrs (fam : String) (ns : List (String × IfaceData)) : List String :=
  (ns.filter (fun p => p.1 ≠ "lo")).flatMap (fun p => addr_cidrs fam p.2.addresses)

/-! ### The record store

A NetBox `VirtualMachine` row, restricted to the fields the synchronised
services read or write.  `cfUuid`, `cfHost`, `cfType` are the
`incus_uuid` / `incus_host` / `incus_type` custom fields (absent vs
present).  Purely informational custom fields (image, profiles,
location, creation and last-sync timestamps) are elided: no verified
property depends on them.  `primaryIp4`/`primaryIp6` hold the primary
key of the referenced `IPAddress` row (`primary_ip4_id`). -/
structure VMRec where
  pk : ℕ
  name : String
  status : String
  vcpus : ℤ × ℕ
  memory : Option ℤ
  disk : Option ℤ
  cluster : Option String
  cfUuid : Option String
  cfHost : Option String
  cfType : Option String
  tags : List String
  primaryIp4 : Option ℕ
  primaryIp6 : Option ℕ
deriving DecidableEq

/-- `obj.save()` on a fetched row: replace the row with the same primary
key. -/
def saveVM (store : List VMRec) (vm : VMRec) : List VMRec :=
  store.map (fun r => if r.pk = vm.pk then vm else r)

/-! ### Instance synchronisation (services/sync_instances.py) -/

/-- The slice of an Incus instance's `config` dict read by the service:
`volatile.uuid` (default `''`), `limits.cpu` (absent or a string),
`limits.memory` (default `''`). -/
structure InstanceConfig where
  volatileUuid : String
  limitsCpu : Option String
  limitsMemory : String
deriving DecidableEq

/-- One device of the instance's `devices`/`expanded_devices` map.
`size` distinguishes an absent key from an empty string. -/
structure DeviceCfg where
  dtype : String
  path : String
  pool : String
  source : String
  size : Option String
deriving DecidableEq

/-- The instance snapshot fields read by `sync_instance`. -/
structure InstanceData where
  name : String
  status : String
  itype : String
  config : InstanceConfig
  devices : List (String × DeviceCfg)
deriving DecidableEq

/-- `_extract_cpu`: `float(config.get('limits.cpu', 1))`, falling back
to 1 on a parse error. -/
def extract_cpu (cfg : InstanceConfig) : ℤ × ℕ :=
  match cfg.limitsCpu with
  | none => (1, 1)
  | some s => (pyFloat? s.data).getD (1, 1)

/-- `_extract_disk`: the parsed size of the first device of type `disk`
mounted at `/`, or the integer 0 when no such device exists.  The inner
`dev_conf.get('size', '0')` defaults an absent size key to `'0'`. -/
def extract_disk (devices : List (String × DeviceCfg)) : Option ℤ :=
  match devices.find? (fun d => d.2.dtype == "disk" && d.2.path == "/") with
  | some d => parse_size (some (d.2.size.getD "0"))
  | none => some 0

/-- Python truthiness of an `Optional[int]`: `None` and 0 are falsy. -/
def truthyZ : Option ℤ → Bool
  | some n => n != 0
  | none => false

/-- `_find_existing_vm`: look up by the `incus_uuid` custom field first
(when the snapshot carries a UUID), then fall back to name plus
`incus_host`. -/
def find_existing_vm (store : List VMRec) (vmName incusUuid hostName : String) :
    Option VMRec :=
  let byUuid :=
    if incusUuid ≠ "" then store.find? (fun v => v.cfUuid == some incusUuid)
    else none
  match byUuid with
  | some v => some v
  | none => store.find? (fun v => v.name == vmName && v.cfHost == some hostName)

/-- `_update_vm_custom_fields`, restricted to the modelled fields: write
`incus_uuid` (only when the snapshot's UUID is non-empty), `incus_host`
and `incus_type`, each only when the stored value differs. -/
def update_vm_custom_fields (vm : VMRec) (data : InstanceData) (hostName : String) :
    VMRec :=
  let vm :=
    if data.config.volatileUuid ≠ "" ∧ vm.cfUuid ≠ some data.config.volatileUuid then
      { vm with cfUuid := some data.config.volatileUuid }
    else vm
  let vm :=
    if vm.cfHost ≠ some hostName then { vm with cfHost := some hostName } else vm
  if vm.cfType ≠ some data.itype then { vm with cfType := some data.itype } else vm

/-- `_apply_tags`: add the managed tag and the type tag matching the
instance type, and remove the other type tag. -/
def apply_tags (itype : String) (tags : List String) : List String :=
  let typeTag := if itype = "container" then "incus-container" else "incus-vm"
  let otherTag := if itype = "container" then "incus-vm" else "incus-container"
  let t1 := if tags.contains "incus-managed" then tags else tags ++ ["incus-managed"]
  let t2 := if t1.contains typeTag then t1 else t1 ++ [typeTag]
  t2.filter (fun s => s != otherTag)

/-- `sync_instance`: map the raw status (`'Running'` → `active`,
anything else → `offline`), extract the resources, resolve the existing
row by UUID then name (renaming it if needed), update it or create a new
row (with primary key `newPk`), then apply custom fields and tags.  The
row's final state after the source's successive saves is written back
once.  Returns the new store, the row's key, and the `created` flag. -/
def sync_instance (store : List VMRec) (data : InstanceData)
    (cluster : Option String) (hostName : String) (newPk : ℕ) :
    List VMRec × ℕ × Bool :=
  let nbStatus := if data.status = "Running" then "active" else "offline"
  let vcpus := extract_cpu data.config
  let memoryMb := parse_memory (some data.config.limitsMemory)
  let diskMb := extract_disk data.devices
  match find_existing_vm store data.name data.config.volatileUuid hostName with
  | some vm0 =>
    let vm1 := { vm0 with
      name := data.name, status := nbStatus, vcpus := vcpus, cluster := cluster }
    let vm1 := if truthyZ memoryMb then { vm1 with memory := memoryMb } else vm1
    let vm1 := if truthyZ diskMb then { vm1 with disk := diskMb } else vm1
    let vm2 := update_vm_custom_fields vm1 data hostName
    let vm3 := { vm2 with tags := apply_tags data.itype vm2.tags }
    (saveVM store vm3, vm3.pk, false)
  | none =>
    let vm : VMRec := {
      pk := newPk, name := data.name, status := nbStatus, vcpus := vcpus,
      memory := if truthyZ memoryMb then memoryMb else none,
      disk := if truthyZ diskMb then diskMb else none,
      cluster := cluster, cfUuid := none, cfHost := none, cfType := none,
      tags := [], primaryIp4 := none, primaryIp6 := none }
    let vm2 := update_vm_custom_fields vm data hostName
    let vm3 := { vm2 with tags := apply_tags data.itype vm2.tags }
    (store ++ [vm3], vm3.pk, true)

/-- A row carries the managed tag. -/
def isManaged (vm : VMRec) : Bool :=
  vm.tags.contains "incus-managed"

/-- `vm.custom_field_data.get('incus_uuid', '')`. -/
def vmUuid (vm : VMRec) : String :=
  vm.cfUuid.getD ""

/-- The condition under which `handle_deletions` removes a row: managed,
synced from this host, carrying a non-empty UUID that is absent from the
current-identity set. -/
def retire_cond (hostName : String) (ids : List String) (vm : VMRec) : Bool :=
  isManaged vm && vm.cfHost == some hostName
    && vmUuid vm != "" && !(ids.contains (vmUuid vm))

/-- `handle_deletions`: filter the managed rows of this host, then
delete (by primary key) every one whose stored UUID is non-empty and not
in `ids`; rows without a UUID are only logged.  The managed tag is
assumed to exist (the job's `setup()` creates it before any pass).
Returns the surviving store and the deleted count. -/
def handle_deletions (store : List VMRec) (hostName : String) (ids : List String) :
    List VMRec × ℕ :=
  let managedVms := store.filter (fun vm => isManaged vm && vm.cfHost == some hostName)
  let toDelete := managedVms.filter
    (fun vm => vmUuid vm != "" && !(ids.contains (vmUuid vm)))
  (store.filter (fun vm => !(toDelete.any (fun d => d.pk == vm.pk))), toDelete.length)

/-- C1's spec-side description of retirement (soft retire): every record
meeting the retirement condition is still present afterwards, set
offline and no longer managed. -/
def soft_retire_spec (hostName : String) (ids : List String)
    (store result : List VMRec) : Prop :=
  ∀ vm ∈ store, retire_cond hostName ids vm = true →
    ∃ r ∈ result, r.pk = vm.pk ∧ r.status = "offline" ∧ isManaged r = false

/-! ### Primary-address arbitration (services/sync_network.py) -/

/-- `_set_primary_ips`: for each family with a candidate whose key
differs from the record's current primary, find the first other live
record holding that address as its primary (fresh store query, excluding
this record), clear that other record's primary and save it, then set
the candidate on this record; save this record once at the end only if
something changed.  Returns the new store and the list of saved primary
keys (in save order) — the write trace. -/
def set_primary_ips (store : List VMRec) (vmPk : ℕ) (ip4 ip6 : Option ℕ) :
    List VMRec × List ℕ :=
  match store.find? (fun r => r.pk == vmPk) with
  | none => (store, [])
  | some vm0 =>
    let s4 : List VMRec × List ℕ × VMRec × Bool :=
      match ip4 with
      | none => (store, [], vm0, false)
      | some p =>
        if vm0.primaryIp4 = some p then (store, [], vm0, false)
        else
          match (store.filter (fun o => o.primaryIp4 == some p && o.pk != vm0.pk)).head? with
          | some o =>
            (saveVM store { o with primaryIp4 := none }, [o.pk],
             { vm0 with primaryIp4 := some p }, true)
          | none => (store, [], { vm0 with primaryIp4 := some p }, true)
    let s6 : List VMRec × List ℕ × VMRec × Bool :=
      match ip6 with
      | none => s4
      | some p =>
        if vm0.primaryIp6 = some p then s4
        else
          match (s4.1.filter (fun o => o.primaryIp6 == some p && o.pk != vm0.pk)).head? with
          | some o =>
            (saveVM s4.1 { o with primaryIp6 := none }, s4.2.1 ++ [o.pk],
             { s4.2.2.1 with primaryIp6 := some p }, true)
          | none => (s4.1, s4.2.1, { s4.2.2.1 with primaryIp6 := some p }, true)
    if s6.2.2.2 then (saveVM s6.1 s6.2.2.1, s6.2.1 ++ [s6.2.2.1.pk])
    else (s6.1, s6.2.1)

/-! ### Disk synchronisation (services/sync_disks.py)

`client.get_storage_volume(pool, kind, name)` never raises (it catches
internally and returns `None`); it is modelled as a lookup function
returning the volume's `config.get('size', '')` when the volume exists. -/

/-- Python truthiness applied to the result of a size computation:
`if size_mb:` keeps only a non-`None`, non-zero value. -/
def truthy_opt (o : Option ℤ) : Option ℤ :=
  match o with
  | some n => if n ≠ 0 then some n else none
  | none => none

/-- `_get_volume_size`: look the volume up as a `custom` volume and
parse its configured size (empty string → `None`). -/
def get_volume_size (volumes : String → String → String → Option String)
    (pool volumeName : String) : Option ℤ :=
  match volumes pool "custom" volumeName with
  | none => none
  | some sizeRaw => if sizeRaw ≠ "" then parse_size (some sizeRaw) else none

/-- `_get_instance_disk_usage`: look the instance's volume up as a
`container` volume, then as a `virtual-machine` volume, and parse its
configured size. -/
def get_instance_disk_usage (volumes : String → String → String → Option String)
    (pool instanceName : String) : Option ℤ :=
  let vi :=
    match volumes pool "container" instanceName with
    | some v => some v
    | none => volumes pool "virtual-machine" instanceName
  match vi with
  | none => none
  | some sizeRaw => if sizeRaw ≠ "" then parse_size (some sizeRaw) else none

/-- `_get_disk_size`: the source's fallback chain.

```python
if size_raw:
    size_mb = parse_size(size_raw)
    if size_mb: return size_mb
if source and pool:
    size_mb = self._get_volume_size(client, pool, source)
    if size_mb: return size_mb
if disk_name == 'root' and pool:
    size_mb = self._get_instance_disk_usage(client, pool, vm_name)
    if size_mb: return size_mb
return 0
``` -/
def get_disk_size (volumes : String → String → String → Option String)
    (sizeRaw pool source diskName vmName : String) : ℤ :=
  match (if sizeRaw ≠ "" then truthy_opt (parse_size (some sizeRaw)) else none) with
  | some n => n
  | none =>
    match (if source ≠ "" ∧ pool ≠ "" then
             truthy_opt (get_volume_size volumes pool source)
           else none) with
    | some n => n
    | none =>
      match (if diskName = "root" ∧ pool ≠ "" then
               truthy_opt (get_instance_disk_usage volumes pool vmName)
             else none) with
      | some n => n
      | none => 0

/-- C6's spec-side chain as literally worded: step (3) applies only to a
root disk *without an explicit size* on the device configuration. -/
def get_disk_size_spec (volumes : String → String → String → Option String)
    (sizeRaw pool source diskName vmName : String) : ℤ :=
  (((if sizeRaw ≠ "" then truthy_opt (parse_size (some sizeRaw)) else none) <|>
    (if source ≠ "" ∧ pool ≠ "" then truthy_opt (get_volume_size volumes pool source)
     else none)) <|>
   (if diskName = "root" ∧ sizeRaw = "" ∧ pool ≠ "" then
      truthy_opt (get_instance_disk_usage volumes pool vmName)
    else none)).getD 0

/-- The amended chain: identical to `get_disk_size_spec` except that
step (3) fires for a device named `root` whenever steps (1) and (2)
produced nothing, even if an explicit size string was present but parsed
to nothing. -/
def get_disk_size_chain (volumes : String → String → String → Option String)
    (sizeRaw pool source diskName vmName : String) : ℤ :=
  (((if sizeRaw ≠ "" then truthy_opt (parse_size (some sizeRaw)) else none) <|>
    (if source ≠ "" ∧ pool ≠ "" then truthy_opt (get_volume_size volumes pool source)
     else none)) <|>
   (if diskName = "root" ∧ pool ≠ "" then
      truthy_opt (get_instance_disk_usage volumes pool vmName)
    else none)).getD 0

/-! ### Event journal (services/sync_events.py) -/

/-- Python's `needle in hay` on character lists. -/
def listContains (hay needle : List Char) : Bool :=
  if needle.isPrefixOf hay then true
  else
    match hay with
    | [] => false
    | _ :: t => listContains t needle

/-- Python's `needle in hay` on strings (`contains` lookup / `in`). -/
def strContains (hay needle : String) : Bool :=
  listContains hay.data needle.data

/-- A NetBox `JournalEntry` row: assigned record, kind, comment text and
creation time (seconds, integral in this model). -/
structure JournalRec where
  vmPk : ℕ
  kind : String
  comments : String
  created : ℤ
deriving DecidableEq

/-- The fields of an Incus operation read by the journal sync; each is
an optionally-present dict key. -/
structure OperationData where
  id : Option String
  description : Option String
  status : Option String
  err : Option String
deriving DecidableEq

/-- `_detect_event_type`: first matching substring pattern of the
lowered description, in source order. -/
def detect_event_type (description : String) : String :=
  let d := String.mk (description.data.map Char.toLower)
  let mappings : List (String × String) := [
    ("creating instance", "instance-created"),
    ("starting instance", "instance-started"),
    ("stopping instance", "instance-stopped"),
    ("shutting down", "instance-shutdown"),
    ("restarting instance", "instance-restarted"),
    ("pausing instance", "instance-paused"),
    ("resuming instance", "instance-resumed"),
    ("deleting instance", "instance-deleted"),
    ("renaming instance", "instance-renamed"),
    ("updating instance", "instance-updated"),
    ("creating instance snapshot", "instance-snapshot-created"),
    ("deleting instance snapshot", "instance-snapshot-deleted"),
    ("renaming instance snapshot", "instance-snapshot-renamed"),
    ("restoring instance snapshot", "instance-snapshot-restored"),
    ("migrating instance", "instance-migrated"),
    ("creating instance backup", "instance-backup-created"),
    ("deleting instance backup", "instance-backup-deleted"),
    ("restoring instance backup", "instance-backup-restored")]
  match mappings.find? (fun m => strContains d m.1) with
  | some m => m.2
  | none => "unknown"

/-- `EVENT_KIND_MAPPING` (JournalEntryKindChoices collapsed to its slug
strings). -/
def event_kind_mapping (eventType : String) : Option String :=
  ([("instance-created", "success"), ("instance-started", "info"),
    ("instance-stopped", "warning"), ("instance-shutdown", "warning"),
    ("instance-restarted", "info"), ("instance-paused", "warning"),
    ("instance-resumed", "info"), ("instance-deleted", "danger"),
    ("instance-renamed", "info"), ("instance-updated", "info"),
    ("instance-snapshot-created", "success"), ("instance-snapshot-deleted", "warning"),
    ("instance-snapshot-renamed", "info"), ("instance-snapshot-restored", "success"),
    ("instance-migrated", "info"), ("instance-backup-created", "success"),
    ("instance-backup-deleted", "warning"), ("instance-backup-restored", "success")]
    : List (String × String)).lookup eventType

/-- `EVENT_LABELS`. -/
def event_labels (eventType : String) : Option String :=
  ([("instance-created", "Instance created"), ("instance-started", "Instance started"),
    ("instance-stopped", "Instance stopped"), ("instance-shutdown", "Instance shutdown"),
    ("instance-restarted", "Instance restarted"), ("instance-paused", "Instance paused"),
    ("instance-resumed", "Instance resumed"), ("instance-deleted", "Instance deleted"),
    ("instance-renamed", "Instance renamed"),
    ("instance-updated", "Instance configuration updated"),
    ("instance-snapshot-created", "Snapshot created"),
    ("instance-snapshot-deleted", "Snapshot deleted"),
    ("instance-snapshot-renamed", "Snapshot renamed"),
    ("instance-snapshot-restored", "Snapshot restored"),
    ("instance-migrated", "Instance migrated"),
    ("instance-backup-created", "Backup created"),
    ("instance-backup-deleted", "Backup deleted"),
    ("instance-backup-restored", "Backup restored")]
    : List (String × String)).lookup eventType

/-- `_find_vm`: by name and `incus_host` first; else by name alone when
exactly one row matches. -/
def find_vm (store : List VMRec) (instanceName hostName : String) : Option VMRec :=
  match store.find? (fun v => v.name == instanceName && v.cfHost == some hostName) with
  | some v => some v
  | none =>
    let vms := store.filter (fun v => v.name == instanceName)
    if vms.length = 1 then vms.head? else none

/-- `_journal_entry_exists`: an entry for the same record, created
within ±1 second of the operation's timestamp, whose comments contain
the fingerprint fragment `op_id[:8]` (the empty fragment when the
operation has no id). -/
def journal_entry_exists (entries : List JournalRec) (vmPk : ℕ) (opId : String)
    (opCreated : ℤ) : Bool :=
  entries.any (fun e =>
    e.vmPk == vmPk && decide (opCreated - 1 ≤ e.created)
      && decide (e.created ≤ opCreated + 1)
      && strContains e.comments (opId.take 8))

/-- `_build_comments`: the Markdown body of a journal entry; dict keys
read with defaults `'N/A'`/`''` as in the source. -/
def build_comments (label : String) (op : OperationData) (hostName : String) : String :=
  let opId := op.id.getD "N/A"
  let opStatus := op.status.getD "N/A"
  let opErr := op.err.getD ""
  let opDescription := op.description.getD ""
  let lines : List String := [
    "**" ++ label ++ "**",
    "",
    "- **Source**: Incus host `" ++ hostName ++ "`",
    "- **Operation**: `" ++ opId.take 8 ++ "...`",
    "- **Status**: " ++ opStatus]
  let lines :=
    if opDescription ≠ "" ∧ opDescription ≠ label then
      lines ++ ["- **Description**: " ++ opDescription]
    else lines
  let lines := if opErr ≠ "" then lines ++ ["- **Error**: " ++ opErr] else lines
  String.intercalate "\n" lines

/-- `_create_journal_entry`: resolve the record, dedupe against the
journal, classify the kind (failures escalate to `danger`), build the
comment and append the entry with the operation's timestamp.  Returns
the new journal and whether an entry was created. -/
def create_journal_entry (store : List VMRec) (entries : List JournalRec)
    (instanceName hostName : String) (op : OperationData) (opCreated : ℤ) :
    List JournalRec × Bool :=
  match find_vm store instanceName hostName with
  | none => (entries, false)
  | some vm =>
    let opId := op.id.getD ""
    let opDescription := op.description.getD ""
    let opStatus := op.status.getD ""
    let opErr := op.err.getD ""
    let eventType := detect_event_type opDescription
    if journal_entry_exists entries vm.pk opId opCreated then (entries, false)
    else
      let kind :=
        if opStatus = "Failure" ∨ opErr ≠ "" then "danger"
        else (event_kind_mapping eventType).getD "info"
      let label := (event_labels eventType).getD opDescription
      let comments := build_comments label op hostName
      (entries ++ [{ vmPk := vm.pk, kind := kind, comments := comments,
                     created := opCreated }], true)

/-! ### Job orchestration and error isolation (jobs.py)

`SyncIncusJob.run` iterates the enabled hosts and calls `_process_host`
on each; `_process_host` wraps its whole body — connection, fetching,
the per-instance sync loop, `handle_deletions` and the event sync — in a
single `try/except Exception` that logs and returns.  The effectful
steps are abstracted to their outcomes: whether the connection test
succeeds, whether fetching the instance list raises, and, per instance,
whether processing it (instance + network + disk sync) raises.

The body's first effectful statement after constructing the client is
`success, message, _ = client.test_connection()` (jobs.py:101).
`IncusClient.test_connection` (incus_client.py:216-238) returns a
**2-tuple** `(success, message)` on every one of its return paths, so
this three-target unpacking is modelled explicitly: it raises
ValueError, which the per-host handler catches. -/

/-- One configured host, with the outcomes of its effectful steps. -/
structure HostSpec where
  name : String
  connectOk : Bool
  fetchOk : Bool
  entities : List (String × Bool)
deriving DecidableEq

/-- What one host's pass accomplished: the entities synced in order, and
whether the retirement (`handle_deletions`) and event phases ran;
`error` is the caught exception, if any. -/
structure HostReport where
  synced : List String
  deletionsRan : Bool
  eventsRan : Bool
  error : Option String
deriving DecidableEq

/-- The per-instance sync loop: entities are processed in order; the
first one whose processing raises aborts the loop with that exception
(there is no per-entity handler in the source). -/
def sync_loop : List (String × Bool) → List String × Option String
  | [] => ([], none)
  | (n, raises) :: rest =>
    if raises then ([], some ("processing " ++ n ++ " raised"))
    else
      let r := sync_loop rest
      (n :: r.1, r.2)

/-- A Python value crossing the `test_connection` boundary: the fields
of its returned tuple are a boolean and a string. -/
inductive PyVal where
  | bool (b : Bool)
  | str (s : String)
deriving DecidableEq

/-- `IncusClient.test_connection` (incus_client.py:216-238): every
return statement of the function yields a 2-tuple
`(success, message)`; the Python tuple is modelled as the list of its
fields. -/
def test_connection_ret (success : Bool) (message : String) : List PyVal :=
  [PyVal.bool success, PyVal.str message]

/-- Python tuple unpacking into three targets, `a, b, c = t`: it
succeeds only on a 3-tuple and otherwise raises ValueError. -/
def unpack3 (t : List PyVal) : Except String (PyVal × PyVal × PyVal) :=
  match t with
  | [a, b, c] => Except.ok (a, b, c)
  | [_, _] => Except.error "ValueError: not enough values to unpack (expected 3, got 2)"
  | [_] => Except.error "ValueError: not enough values to unpack (expected 3, got 1)"
  | [] => Except.error "ValueError: not enough values to unpack (expected 3, got 0)"
  | _ => Except.error "ValueError: too many values to unpack (expected 3)"

/-- Python truthiness of an unpacked tuple field. -/
def pyTruthyVal : PyVal → Bool
  | PyVal.bool b => b
  | PyVal.str s => s != ""

/-- `_process_host` (jobs.py:89-176): the whole body runs under one
`try/except Exception`.  The body first unpacks `test_connection`'s
2-tuple into the three targets `success, message, _`; the statements
that follow it in the source — the early normal return on a failed
connection, the instance fetch, the per-instance loop,
`handle_deletions` and the event sync — are translated after the
unpacking, in source order.  The handler turns a raised exception into
a logged error, keeping the entities already saved before the raise
(the body's error value carries them). -/
def process_host (h : HostSpec) : HostReport :=
  let body : Except (List String × String) HostReport :=
    match unpack3 (test_connection_ret h.connectOk ("Connecté à " ++ h.name)) with
    | Except.error e => Except.error ([], e)
    | Except.ok (success, _message, _third) =>
      if !(pyTruthyVal success) then
        Except.ok { synced := [], deletionsRan := false, eventsRan := false,
                    error := none }
      else if !h.fetchOk then
        Except.error ([], "fetching instances raised")
      else
        match sync_loop h.entities with
        | (s, some e) => Except.error (s, e)
        | (s, none) =>
          Except.ok { synced := s, deletionsRan := true, eventsRan := true,
                      error := none }
  match body with
  | Except.ok r => r
  | Except.error (s, e) =>
    { synced := s, deletionsRan := false, eventsRan := false, error := some e }

/-- `run`: process every enabled host in order; `_process_host` never
lets an exception escape, so the run is a total function of the host
list. -/
def run_full_sync (hosts : List HostSpec) : List HostReport :=
  hosts.map process_host

/-! ## Claims -/

/-! ### C5 — parse_memory / parse_size contract -/

/-- C5 (counterexample): the claim says a bare integer is converted from
bytes to MB by *floor* division.  The source computes
`int(int(value) / (1024*1024))`, which truncates toward zero: on the
bare integer `"-2097153"` the code yields `-2` while floor division
yields `-3`. -/
theorem parse_memory_not_floor_div :
    ¬ parse_memory (some "-2097153") = some (Int.fdiv (-2097153) (1024 * 1024)) := by
  decide

/-- C5 (amended): branch-by-branch contract of `parse_memory`.  With
`v` the uppercased, stripped input: a `GiB`/`GB` suffix multiplies the
parsed numeric prefix by 1024 (decimal suffixes behave identically to
binary ones), `MiB`/`MB` takes it as-is, `KiB`/`KB` divides it by 1024,
each truncated to an integer; a bare integer is interpreted as raw bytes
converted to MB by division truncated toward zero — which coincides with
the claimed floor division on every non-negative value; a failing
numeric parse, the empty string and `None` yield `none` (absent, never
an exception). -/
theorem parse_memory_contract :
    (∀ s : String, ∀ q : ℤ, ∀ d : ℕ, s ≠ "" →
      pyEndsWith (pyStrip (pyUpper s.data)) ['G', 'I', 'B'] = true →
      pyFloat? (pyDropRight (pyStrip (pyUpper s.data)) 3) = some (q, d) →
      parse_memory (some s) = some (pyTrunc (q * 1024) d))
  ∧ (∀ s : String, ∀ q : ℤ, ∀ d : ℕ, s ≠ "" →
      pyEndsWith (pyStrip (pyUpper s.data)) ['G', 'I', 'B'] = false →
      pyEndsWith (pyStrip (pyUpper s.data)) ['G', 'B'] = true →
      pyFloat? (pyDropRight (pyStrip (pyUpper s.data)) 2) = some (q, d) →
      parse_memory (some s) = some (pyTrunc (q * 1024) d))
  ∧ (∀ s : String, ∀ q : ℤ, ∀ d : ℕ, s ≠ "" →
      pyEndsWith (pyStrip (pyUpper s.data)) ['G', 'I', 'B'] = false →
      pyEndsWith (pyStrip (pyUpper s.data)) ['G', 'B'] = false →
      pyEndsWith (pyStrip (pyUpper s.data)) ['M', 'I', 'B'] = true →
      pyFloat? (pyDropRight (pyStrip (pyUpper s.data)) 3) = some (q, d) →
      parse_memory (some s) = some (pyTrunc q d))
  ∧ (∀ s : String, ∀ q : ℤ, ∀ d : ℕ, s ≠ "" →
      pyEndsWith (pyStrip (pyUpper s.data)) ['G', 'I', 'B'] = false →
      pyEndsWith (pyStrip (pyUpper s.data)) ['G', 'B'] = false →
      pyEndsWith (pyStrip (pyUpper s.data)) ['M', 'I', 'B'] = false →
      pyEndsWith (pyStrip (pyUpper s.data)) ['M', 'B'] = true →
      pyFloat? (pyDropRight (pyStrip (pyUpper s.data)) 2) = some (q, d) →
      parse_memory (some s) = some (pyTrunc q d))
  ∧ (∀ s : String, ∀ q : ℤ, ∀ d : ℕ, s ≠ "" →
      pyEndsWith (pyStrip (pyUpper s.data)) ['G', 'I', 'B'] = false →
      pyEndsWith (pyStrip (pyUpper s.data)) ['G', 'B'] = false →
      pyEndsWith (pyStrip (pyUpper s.data)) ['M', 'I', 'B'] = false →
      pyEndsWith (pyStrip (pyUpper s.data)) ['M', 'B'] = false →
      pyEndsWith (pyStrip (pyUpper s.data)) ['K', 'I', 'B'] = true →
      pyFloat? (pyDropRight (pyStrip (pyUpper s.data)) 3) = some (q, d) →
      parse_memory (some s) = some (pyTrunc q (d * 1024)))
  ∧ (∀ s : String, ∀ q : ℤ, ∀ d : ℕ, s ≠ "" →
      pyEndsWith (pyStrip (pyUpper s.data)) ['G', 'I', 'B'] = false →
      pyEndsWith (pyStrip (pyUpper s.data)) ['G', 'B'] = false →
      pyEndsWith (pyStrip (pyUpper s.data)) ['M', 'I', 'B'] = false →
      pyEndsWith (pyStrip (pyUpper s.data)) ['M', 'B'] = false →
      pyEndsWith (pyStrip (pyUpper s.data)) ['K', 'I', 'B'] = false →
      pyEndsWith (pyStrip (pyUpper s.data)) ['K', 'B'] = true →
      pyFloat? (pyDropRight (pyStrip (pyUpper s.data)) 2) = some (q, d) →
      parse_memory (some s) = some (pyTrunc q (d * 1024)))
  ∧ (∀ s : String, ∀ n : ℤ, s ≠ "" →
      pyEndsWith (pyStrip (pyUpper s.data)) ['G', 'I', 'B'] = false →
      pyEndsWith (pyStrip (pyUpper s.data)) ['G', 'B'] = false →
      pyEndsWith (pyStrip (pyUpper s.data)) ['M', 'I', 'B'] = false →
      pyEndsWith (pyStrip (pyUpper s.data)) ['M', 'B'] = false →
      pyEndsWith (pyStrip (pyUpper s.data)) ['K', 'I', 'B'] = false →
      pyEndsWith (pyStrip (pyUpper s.data)) ['K', 'B'] = false →
      pyInt? (pyStrip (pyUpper s.data)) = some n →
      parse_memory (some s) = some (pyTrunc n (1024 * 1024)))
  ∧ (∀ n : ℤ, 0 ≤ n → pyTrunc n (1024 * 1024) = Int.fdiv n (1024 * 1024))
  ∧ (∀ s : String, s ≠ "" →
      pyEndsWith (pyStrip (pyUpper s.data)) ['G', 'I', 'B'] = false →
      pyEndsWith (pyStrip (pyUpper s.data)) ['G', 'B'] = false →
      pyEndsWith (pyStrip (pyUpper s.data)) ['M', 'I', 'B'] = false →
      pyEndsWith (pyStrip (pyUpper s.data)) ['M', 'B'] = false →
      pyEndsWith (pyStrip (pyUpper s.data)) ['K', 'I', 'B'] = false →
      pyEndsWith (pyStrip (pyUpper s.data)) ['K', 'B'] = false →
      pyInt? (pyStrip (pyUpper s.data)) = none →
      parse_memory (some s) = none)
  ∧ (∀ s : String, s ≠ "" →
      pyEndsWith (pyStrip (pyUpper s.data)) ['G', 'I', 'B'] = true →
      pyFloat? (pyDropRight (pyStrip (pyUpper s.data)) 3) = none →
      parse_memory (some s) = none)
  ∧ parse_memory (some "") = none ∧ parse_memory none = none := by
  refine ⟨?_, ?_, ?_, ?_, ?_, ?_, ?_, ?_, ?_, ?_, by decide, by decide⟩
  · intro s q d hne h1 hf
    simp [parse_memory, hne, h1, hf]
  · intro s q d hne h1 h2 hf
    simp [parse_memory, hne, h1, h2, hf]
  · intro s q d hne h1 h2 h3 hf
    simp [parse_memory, hne, h1, h2, h3, hf]
  · intro s q d hne h1 h2 h3 h4 hf
    simp [parse_memory, hne, h1, h2, h3, h4, hf]
  · intro s q d hne h1 h2 h3 h4 h5 hf
    simp [parse_memory, hne, h1, h2, h3, h4, h5, hf]
  · intro s q d hne h1 h2 h3 h4 h5 h6 hf
    simp [parse_memory, hne, h1, h2, h3, h4, h5, h6, hf]
  · intro s n hne h1 h2 h3 h4 h5 h6 hi
    simp [parse_memory, hne, h1, h2, h3, h4, h5, h6, hi]
  · intro n hn
    have hd : (0 : ℤ) ≤ 1024 * 1024 := by decide
    rw [pyTrunc, Int.tdiv_eq_ediv hn (by decide)]
    rw [Int.fdiv_eq_ediv _ hd]
    norm_num
  · intro s hne h1 h2 h3 h4 h5 h6 hi
    simp [parse_memory, hne, h1, h2, h3, h4, h5, h6, hi]
  · intro s hne h1 hf
    simp [parse_memory, hne, h1, hf]

/-- C5 (witness): the contract instantiated on the spec's own examples
(`"4GiB"`, `"4GB"`, `"512MiB"`, `"2048KiB"`, the bare `"2048"`, and the
malformed `"abc"`). -/
theorem parse_memory_contract_witness :
    parse_memory (some "4GiB") = some (pyTrunc (4 * 1024) 1)
  ∧ parse_memory (some "4GB") = some (pyTrunc (4 * 1024) 1)
  ∧ parse_memory (some "512MiB") = some (pyTrunc 512 1)
  ∧ parse_memory (some "2048KiB") = some (pyTrunc 2048 (1 * 1024))
  ∧ parse_memory (some "2048") = some (pyTrunc 2048 (1024 * 1024))
  ∧ pyTrunc 2048 (1024 * 1024) = Int.fdiv 2048 (1024 * 1024)
  ∧ parse_memory (some "abc") = none :=
  ⟨parse_memory_contract.1 "4GiB" 4 1 (by decide) (by decide) (by decide),
   parse_memory_contract.2.1 "4GB" 4 1 (by decide) (by decide) (by decide) (by decide),
   parse_memory_contract.2.2.1 "512MiB" 512 1 (by decide) (by decide) (by decide)
     (by decide) (by decide),
   parse_memory_contract.2.2.2.2.1 "2048KiB" 2048 1 (by decide) (by decide) (by decide)
     (by decide) (by decide) (by decide) (by decide),
   parse_memory_contract.2.2.2.2.2.2.1 "2048" 2048 (by decide) (by decide) (by decide)
     (by decide) (by decide) (by decide) (by decide) (by decide),
   parse_memory_contract.2.2.2.2.2.2.2.1 2048 (by decide),
   parse_memory_contract.2.2.2.2.2.2.2.2.1 "abc" (by decide) (by decide) (by decide)
     (by decide) (by decide) (by decide) (by decide) (by decide)⟩

/-! ### C4 — interface iteration order -/

/-- Bridge between the alternative combinator and `Option.or`. -/
theorem opt_orElse_eq_or {α : Type} (a b : Option α) : (a <|> b) = a.or b := by
  cases a <;> rfl

/-- Helper: the per-interface candidate tracking returns the first
qualifying address of each family, in presentation order. -/
theorem sync_interface_ips_head (ads : List AddrInfo) :
    (sync_interface_ips ads).1 = (addr_cidrs "inet" ads).head?
      ∧ (sync_interface_ips ads).2.1 = (addr_cidrs "inet6" ads).head? := by
  induction ads with
  | nil => simp [sync_interface_ips, addr_cidrs]
  | cons a rest ih =>
    by_cases hs : a.scope = "link" ∨ a.scope = "local"
    · rw [addr_cidrs, addr_cidrs, List.filter_cons, List.filter_cons] at *
      simpa [sync_interface_ips, hs] using ih
    · by_cases ha : a.address = "" ∨ a.netmask = ""
      · rw [addr_cidrs, addr_cidrs, List.filter_cons, List.filter_cons] at *
        rcases ha with h | h <;> simpa [sync_interface_ips, hs, h] using ih
      · push_neg at ha
        rw [addr_cidrs, addr_cidrs, List.filter_cons, List.filter_cons] at *
        by_cases h4 : a.family = "inet"
        · have h6 : ¬ a.family = "inet6" := by simp [h4]
          simp [sync_interface_ips, hs, ha.1, ha.2, h4, h6, ih.2]
        · by_cases h6 : a.family = "inet6"
          · simp [sync_interface_ips, hs, ha.1, ha.2, h4, h6, ih.1]
          · simp [sync_interface_ips, hs, ha.1, ha.2, h4, h6, ih.1, ih.2]

/-- C4 (amended): the network reconciliation processes interfaces in the
order in which the state map presents them (a Python dict's insertion
order, not sorted by name), and the primary candidate of each family is
the first qualifying global address in that presentation order. -/
theorem primary_candidates_presentation_order (ns : List (String × IfaceData)) :
    primary_candidates ns
      = ((global_addrs "inet" ns).head?, (global_addrs "inet6" ns).head?) := by
  induction ns with
  | nil => simp [primary_candidates, global_addrs]
  | cons p rest ih =>
    obtain ⟨name, ifd⟩ := p
    by_cases hlo : name = "lo"
    · rw [global_addrs, global_addrs, List.filter_cons]
      simpa [primary_candidates, hlo, global_addrs] using ih
    · have h := sync_interface_ips_head ifd.addresses
      rw [global_addrs, global_addrs, List.filter_cons]
      simp [primary_candidates, hlo, ih, h.1, h.2, opt_orElse_eq_or, global_addrs]

/-- C4 (counterexample): two presentation orders of the same interface
map (a permutation) yield different primary IPv4 candidates, refuting
the claimed order-independence (the code does not sort the map). -/
theorem primary_candidates_order_dependent :
    ([("eth0", IfaceData.mk [AddrInfo.mk "10.0.0.5" "24" "global" "inet"]),
      ("eth1", IfaceData.mk [AddrInfo.mk "10.0.0.6" "24" "global" "inet"])]).Perm
     [("eth1", IfaceData.mk [AddrInfo.mk "10.0.0.6" "24" "global" "inet"]),
      ("eth0", IfaceData.mk [AddrInfo.mk "10.0.0.5" "24" "global" "inet"])]
  ∧ primary_candidates
      [("eth0", IfaceData.mk [AddrInfo.mk "10.0.0.5" "24" "global" "inet"]),
       ("eth1", IfaceData.mk [AddrInfo.mk "10.0.0.6" "24" "global" "inet"])]
    ≠ primary_candidates
      [("eth1", IfaceData.mk [AddrInfo.mk "10.0.0.6" "24" "global" "inet"]),
       ("eth0", IfaceData.mk [AddrInfo.mk "10.0.0.5" "24" "global" "inet"])] := by
  constructor
  · exact List.Perm.swap _ _ _
  · decide

/-! ### C6 — disk size fallback chain -/

/-- A concrete volume-size lookup for the C6 counterexample: the pool
`p` holds a container volume `vm1` of configured size `100MiB`. -/
def c6_volumes : String → String → String → Option String :=
  fun pool kind nm =>
    if pool = "p" ∧ kind = "container" ∧ nm = "vm1" then some "100MiB" else none

/-- C6 (counterexample): the claim restricts step (3) to a root disk
*without an explicit size*.  On a root device whose explicit size string
is present but malformed (`"abc"`), the code still falls through to the
instance-usage lookup and records 100, where the claim as worded
records 0. -/
theorem get_disk_size_explicit_size_not_required :
    get_disk_size c6_volumes "abc" "p" "" "root" "vm1" = 100
  ∧ get_disk_size_spec c6_volumes "abc" "p" "" "root" "vm1" = 0 := by
  constructor <;> decide

/-- C6 (amended): the recorded size is the first truthy result of the
ordered chain — (1) the device's explicit size parsed by the unit
parser, (2) the named volume's configured size when the device has both
a source and a pool, (3) the entity's storage usage when the device is
named `root` and has a pool (whether or not an explicit size string was
present), — and 0 when all three produce nothing. -/
theorem get_disk_size_fallback_chain
    (volumes : String → String → String → Option String)
    (sizeRaw pool source diskName vmName : String) :
    get_disk_size volumes sizeRaw pool source diskName vmName
      = get_disk_size_chain volumes sizeRaw pool source diskName vmName := by
  unfold get_disk_size get_disk_size_chain
  cases h1 : (if sizeRaw ≠ "" then truthy_opt (parse_size (some sizeRaw)) else none) with
  | some n => simp [h1]
  | none =>
    cases h2 : (if source ≠ "" ∧ pool ≠ "" then
        truthy_opt (get_volume_size volumes pool source) else none) with
    | some n => simp [h1, h2]
    | none =>
      cases h3 : (if diskName = "root" ∧ pool ≠ "" then
          truthy_opt (get_instance_disk_usage volumes pool vmName) else none) with
      | some n => simp [h1, h2, h3]
      | none => simp [h1, h2, h3]

/-! ### C1 — retirement of disappeared instances -/

/-- C1 (counterexample): a managed record of host `h1` with UUID `u1`,
absent from the current-identity set, is *deleted* by
`handle_deletions`, not kept offline and unmanaged as the claim states:
the resulting store is empty, so no retired record exists in it. -/
theorem handle_deletions_not_soft_retire :
    (handle_deletions
        [{ pk := 1, name := "a", status := "active", vcpus := (1, 1),
           memory := none, disk := none, cluster := none,
           cfUuid := some "u1", cfHost := some "h1", cfType := none,
           tags := ["incus-managed"], primaryIp4 := none, primaryIp6 := none }]
        "h1" []).1 = []
  ∧ ¬ soft_retire_spec "h1" []
      [{ pk := 1, name := "a", status := "active", vcpus := (1, 1),
         memory := none, disk := none, cluster := none,
         cfUuid := some "u1", cfHost := some "h1", cfType := none,
         tags := ["incus-managed"], primaryIp4 := none, primaryIp6 := none }]
      (handle_deletions
        [{ pk := 1, name := "a", status := "active", vcpus := (1, 1),
           memory := none, disk := none, cluster := none,
           cfUuid := some "u1", cfHost := some "h1", cfType := none,
           tags := ["incus-managed"], primaryIp4 := none, primaryIp6 := none }]
        "h1" []).1 := by
  constructor
  · decide
  · intro h
    have := h
      { pk := 1, name := "a", status := "active", vcpus := (1, 1),
        memory := none, disk := none, cluster := none,
        cfUuid := some "u1", cfHost := some "h1", cfType := none,
        tags := ["incus-managed"], primaryIp4 := none, primaryIp6 := none }
      (by simp) (by decide)
    simp [handle_deletions, retire_cond, isManaged, vmUuid] at this

/-- Helper: on a store with distinct primary keys, `handle_deletions`
is the filter by the retirement condition. -/
theorem handle_deletions_eq (store : List VMRec) (hostName : String)
    (ids : List String) (hN : (store.map VMRec.pk).Nodup) :
    (handle_deletions store hostName ids).1
      = store.filter (fun vm => !(retire_cond hostName ids vm))
  ∧ (handle_deletions store hostName ids).2
      = (store.filter (retire_cond hostName ids)).length := by
  have hinj := List.inj_on_of_nodup_map hN
  have htd : (store.filter (fun vm => isManaged vm && vm.cfHost == some hostName)).filter
      (fun vm => vmUuid vm != "" && !(ids.contains (vmUuid vm)))
      = store.filter (retire_cond hostName ids) := by
    rw [List.filter_filter]
    apply List.filter_congr
    intro vm _
    simp [retire_cond, Bool.and_assoc, Bool.and_comm, Bool.and_left_comm]
  constructor
  · show store.filter _ = _
    apply List.filter_congr
    intro vm hvm
    rw [htd]
    rcases hany : (store.filter (retire_cond hostName ids)).any
        (fun d => d.pk == vm.pk) with _ | _
    · rcases hc : retire_cond hostName ids vm with _ | _
      · rfl
      · exfalso
        rw [List.any_eq_false] at hany
        exact absurd (by simp) (hany vm (List.mem_filter.2 ⟨hvm, hc⟩))
    · rw [List.any_eq_true] at hany
      obtain ⟨d, hd, hpk⟩ := hany
      obtain ⟨hdstore, hdcond⟩ := List.mem_filter.1 hd
      have : d = vm := hinj hdstore hvm (by simpa using hpk)
      rw [← this, hdcond]
  · show ((store.filter _).filter _).length = _
    rw [htd]

/-- C1 (amended): in a store with distinct primary keys, the retirement
pass removes (hard-deletes) exactly the records carrying the managed tag
within the host's scope whose stored UUID is non-empty and absent from
`current_identities`; every other record — in particular every managed
record whose identity is in the set — survives unchanged, and the
returned count is the number of retired records. -/
theorem handle_deletions_retires_exactly (store : List VMRec) (hostName : String)
    (ids : List String) (hN : (store.map VMRec.pk).Nodup) :
    (handle_deletions store hostName ids).1
      = store.filter (fun vm => !(retire_cond hostName ids vm))
  ∧ (handle_deletions store hostName ids).2
      = (store.filter (retire_cond hostName ids)).length :=
  handle_deletions_eq store hostName ids hN

/-- C1 (witness): the amended theorem on a two-record store — the
managed record whose UUID is missing from the set is deleted, the one
whose UUID is present survives. -/
theorem handle_deletions_retires_exactly_witness :
    (handle_deletions
        [{ pk := 1, name := "a", status := "active", vcpus := (1, 1),
           memory := none, disk := none, cluster := none,
           cfUuid := some "u1", cfHost := some "h1", cfType := none,
           tags := ["incus-managed"], primaryIp4 := none, primaryIp6 := none },
         { pk := 2, name := "b", status := "active", vcpus := (1, 1),
           memory := none, disk := none, cluster := none,
           cfUuid := some "u2", cfHost := some "h1", cfType := none,
           tags := ["incus-managed"], primaryIp4 := none, primaryIp6 := none }]
        "h1" ["u2"]).1
      = [{ pk := 2, name := "b", status := "active", vcpus := (1, 1),
           memory := none, disk := none, cluster := none,
           cfUuid := some "u2", cfHost := some "h1", cfType := none,
           tags := ["incus-managed"], primaryIp4 := none, primaryIp6 := none }]
  ∧ (handle_deletions
        [{ pk := 1, name := "a", status := "active", vcpus := (1, 1),
           memory := none, disk := none, cluster := none,
           cfUuid := some "u1", cfHost := some "h1", cfType := none,
           tags := ["incus-managed"], primaryIp4 := none, primaryIp6 := none },
         { pk := 2, name := "b", status := "active", vcpus := (1, 1),
           memory := none, disk := none, cluster := none,
           cfUuid := some "u2", cfHost := some "h1", cfType := none,
           tags := ["incus-managed"], primaryIp4 := none, primaryIp6 := none }]
        "h1" ["u2"]).2 = 1 := by
  have h := handle_deletions_retires_exactly
    [{ pk := 1, name := "a", status := "active", vcpus := (1, 1),
       memory := none, disk := none, cluster := none,
       cfUuid := some "u1", cfHost := some "h1", cfType := none,
       tags := ["incus-managed"], primaryIp4 := none, primaryIp6 := none },
     { pk := 2, name := "b", status := "active", vcpus := (1, 1),
       memory := none, disk := none, cluster := none,
       cfUuid := some "u2", cfHost := some "h1", cfType := none,
       tags := ["incus-managed"], primaryIp4 := none, primaryIp6 := none }]
    "h1" ["u2"] (by decide)
  rw [h.1, h.2]
  constructor <;> decide

/-! ### C8 — records without identity are never auto-retired -/

/-- C8: in a store with distinct primary keys, a managed record whose
stored stable identity is empty or absent survives `handle_deletions`
entirely unchanged — it is never deleted, whatever the
current-identity set is. -/
theorem no_identity_never_retired (store : List VMRec) (hostName : String)
    (ids : List String) (vm : VMRec) (hN : (store.map VMRec.pk).Nodup)
    (hvm : vm ∈ store) (hu : vmUuid vm = "") :
    vm ∈ (handle_deletions store hostName ids).1 := by
  rw [(handle_deletions_eq store hostName ids hN).1]
  refine List.mem_filter.2 ⟨hvm, ?_⟩
  simp [retire_cond, hu]

/-- C8 (witness): a managed, UUID-less record of the scoped host
survives a pass whose snapshot is empty. -/
theorem no_identity_never_retired_witness :
    { pk := 1, name := "legacy", status := "active", vcpus := ((1 : ℤ), (1 : ℕ)),
      memory := none, disk := none, cluster := none,
      cfUuid := none, cfHost := some "h1", cfType := none,
      tags := ["incus-managed"], primaryIp4 := none,
      primaryIp6 := none : VMRec }
      ∈ (handle_deletions
          [{ pk := 1, name := "legacy", status := "active", vcpus := (1, 1),
             memory := none, disk := none, cluster := none,
             cfUuid := none, cfHost := some "h1", cfType := none,
             tags := ["incus-managed"], primaryIp4 := none, primaryIp6 := none }]
          "h1" []).1 :=
  no_identity_never_retired _ "h1" []
    { pk := 1, name := "legacy", status := "active", vcpus := (1, 1),
      memory := none, disk := none, cluster := none,
      cfUuid := none, cfHost := some "h1", cfType := none,
      tags := ["incus-managed"], primaryIp4 := none, primaryIp6 := none }
    (by decide) (by simp) (by decide)

/-! ### C9 — failure isolation -/

/-- C9 (code bug): `_process_host`'s guarded body begins by unpacking
`test_connection`'s 2-tuple into three targets, so processing every
host raises ValueError inside the per-host handler before the
connection check, the instance loop, the retirement pass or the event
sync can run: each host's report is the caught-error report with
nothing synced, and the full run still visits every host, each failing
identically.  The claimed narrowest-scope (per-entity) isolation
concerns code that is unreachable. -/
theorem process_host_always_raises (hosts : List HostSpec) :
    (∀ h : HostSpec,
      process_host h =
        { synced := [], deletionsRan := false, eventsRan := false,
          error := some "ValueError: not enough values to unpack (expected 3, got 2)" })
    ∧ run_full_sync hosts
      = hosts.map (fun _ =>
          { synced := [], deletionsRan := false, eventsRan := false,
            error := some "ValueError: not enough values to unpack (expected 3, got 2)" }) := by
  constructor
  · intro h
    rfl
  · unfold run_full_sync
    exact List.map_congr_left (fun h _ => rfl)

/-! ### C3 — identity resolution and rename survival -/

/-- Helper: `find?` returns the unique element satisfying the
predicate. -/
theorem list_find?_eq_of_unique {α : Type} (l : List α) (a : α) (p : α → Bool)
    (ha : a ∈ l) (hp : p a = true) (huniq : ∀ r ∈ l, p r = true → r = a) :
    l.find? p = some a := by
  induction l with
  | nil => cases ha
  | cons b rest ih =>
    by_cases hb : p b = true
    · rw [List.find?_cons_of_pos rest hb, huniq b (by simp) hb]
    · rw [List.find?_cons_of_neg rest (by simpa using hb)]
      refine ih ?_ (fun r hr hpr => huniq r (by simp [hr]) hpr)
      rcases List.mem_cons.1 ha with h | h
      · exact absurd (h ▸ hp) hb
      · exact h

/-- Helper: on a duplicate-free list, the filter by a predicate with a
unique solution is the singleton of that solution. -/
theorem list_filter_eq_singleton {α : Type} (l : List α) (a : α) (p : α → Bool)
    (hN : l.Nodup) (ha : a ∈ l) (hp : p a = true)
    (huniq : ∀ r ∈ l, p r = true → r = a) :
    l.filter p = [a] := by
  induction l with
  | nil => cases ha
  | cons b rest ih =>
    rcases List.nodup_cons.1 hN with ⟨hnb, hnr⟩
    by_cases hb : p b = true
    · have hba : b = a := huniq b (by simp) hb
      rw [List.filter_cons_of_pos hb, hba]
      have : rest.filter p = [] := by
        rw [List.filter_eq_nil_iff]
        intro r hr hpr
        have hra : r = a := huniq r (by simp [hr]) hpr
        exact hnb (by rw [hba, ← hra]; exact hr)
      rw [this]
    · rw [List.filter_cons_of_neg (by simpa using hb)]
      refine ih hnr ?_ (fun r hr hpr => huniq r (by simp [hr]) hpr)
      rcases List.mem_cons.1 ha with h | h
      · exact absurd (h ▸ hp) hb
      · exact h

/-- Helper: writing back a row that carries the unique UUID and the new
name leaves the store with exactly one row carrying that UUID, and that
row bears the new name. -/
theorem saveVM_unique_uuid_name (store : List VMRec) (vm0 vm3 : VMRec) (u nm : String)
    (hN : (store.map VMRec.pk).Nodup) (hvm : vm0 ∈ store)
    (hpk : vm3.pk = vm0.pk) (hcf : vm3.cfUuid = some u) (hnm : vm3.name = nm)
    (huniq : ∀ r ∈ store, r.cfUuid = some u → r = vm0) :
    ((saveVM store vm3).filter (fun r => r.cfUuid == some u)).map VMRec.name = [nm] := by
  have hinj := List.inj_on_of_nodup_map hN
  rw [saveVM, List.filter_map]
  have : store.filter ((fun r => r.cfUuid == some u) ∘
      (fun r => if r.pk = vm3.pk then vm3 else r)) = [vm0] := by
    refine list_filter_eq_singleton store vm0 _ (hN.of_map _) hvm ?_ ?_
    · simp [Function.comp, hpk, hcf]
    · intro r hr hpr
      simp only [Function.comp] at hpr
      by_cases hrpk : r.pk = vm3.pk
      · exact hinj hr hvm (by rw [hrpk, hpk])
      · rw [if_neg hrpk] at hpr
        exact huniq r hr (by simpa using hpr)
  rw [this]
  simp [hpk, hnm]

/-- Helper: `saveVM` never changes the store's size. -/
theorem saveVM_length (store : List VMRec) (vm : VMRec) :
    (saveVM store vm).length = store.length := by
  simp [saveVM]

/-- Helper: the custom-field update never changes the primary key. -/
theorem update_cf_pk (vm : VMRec) (data : InstanceData) (hostName : String) :
    (update_vm_custom_fields vm data hostName).pk = vm.pk := by
  simp only [update_vm_custom_fields]
  split_ifs <;> rfl

/-- Helper: the custom-field update never changes the name. -/
theorem update_cf_name (vm : VMRec) (data : InstanceData) (hostName : String) :
    (update_vm_custom_fields vm data hostName).name = vm.name := by
  simp only [update_vm_custom_fields]
  split_ifs <;> rfl

/-- Helper: a stored UUID that already matches the snapshot's is left
unchanged by the custom-field update. -/
theorem update_cf_uuid_of_eq (vm : VMRec) (data : InstanceData) (hostName : String)
    (hm : vm.cfUuid = some data.config.volatileUuid) :
    (update_vm_custom_fields vm data hostName).cfUuid
      = some data.config.volatileUuid := by
  simp only [update_vm_custom_fields]
  split_ifs <;> simp_all

/-- Helper: when the resolver finds an existing row, `sync_instance`
saves an updated row with the same primary key and the snapshot's name,
creating nothing; a stored UUID already matching the snapshot is left
as-is. -/
theorem sync_instance_found (store : List VMRec) (data : InstanceData)
    (cluster : Option String) (hostName : String) (newPk : ℕ) (vm0 : VMRec)
    (hfind : find_existing_vm store data.name data.config.volatileUuid hostName
      = some vm0) :
    ∃ vm3 : VMRec,
      sync_instance store data cluster hostName newPk
        = (saveVM store vm3, vm3.pk, false)
      ∧ vm3.pk = vm0.pk ∧ vm3.name = data.name
      ∧ (vm0.cfUuid = some data.config.volatileUuid →
          vm3.cfUuid = some data.config.volatileUuid) := by
  unfold sync_instance
  rw [hfind]
  refine ⟨_, rfl, ?_, ?_, ?_⟩
  · simp only [update_cf_pk, apply_ite VMRec.pk, ite_self]
  · simp only [update_cf_name, apply_ite VMRec.name, ite_self]
  · intro hm
    rw [show ∀ (v : VMRec) t, ({ v with tags := t } : VMRec).cfUuid = v.cfUuid
      from fun _ _ => rfl]
    apply update_cf_uuid_of_eq
    simp only [apply_ite VMRec.cfUuid, ite_self]
    exact hm

/-- C3: when the snapshot's `volatile.uuid` is non-empty and matches the
unique live record carrying it, the resolver returns that record —
whatever its current display name and host — and `sync_instance` then
updates it in place: nothing is created, the store size is unchanged,
and exactly one record carries the UUID afterwards, bearing the
snapshot's (possibly new) name. -/
theorem stable_id_resolution_rename_safe (store : List VMRec) (data : InstanceData)
    (cluster : Option String) (hostName : String) (newPk : ℕ) (vm0 : VMRec)
    (hN : (store.map VMRec.pk).Nodup)
    (hu : data.config.volatileUuid ≠ "")
    (hvm : vm0 ∈ store) (hmatch : vm0.cfUuid = some data.config.volatileUuid)
    (huniq : ∀ r ∈ store, r.cfUuid = some data.config.volatileUuid → r = vm0) :
    find_existing_vm store data.name data.config.volatileUuid hostName = some vm0
  ∧ (sync_instance store data cluster hostName newPk).2.2 = false
  ∧ (sync_instance store data cluster hostName newPk).1.length = store.length
  ∧ ((sync_instance store data cluster hostName newPk).1.filter
      (fun r => r.cfUuid == some data.config.volatileUuid)).map VMRec.name
      = [data.name] := by
  have hfind : find_existing_vm store data.name data.config.volatileUuid hostName
      = some vm0 := by
    rw [find_existing_vm, if_pos hu,
      list_find?_eq_of_unique store vm0 _ hvm (by simp [hmatch])
        (fun r hr hpr => huniq r hr (by simpa using hpr))]
  obtain ⟨vm3, heq, hpk, hname, hcfimp⟩ :=
    sync_instance_found store data cluster hostName newPk vm0 hfind
  refine ⟨hfind, ?_, ?_, ?_⟩
  · rw [heq]
  · rw [heq]
    exact saveVM_length store vm3
  · rw [heq]
    exact saveVM_unique_uuid_name store vm0 vm3 _ _ hN hvm hpk (hcfimp hmatch)
      hname huniq

/-- C3 (witness): a snapshot with UUID `U1` and new name `b` re-claims
the record previously named `a` on another host: nothing is created and
the single `U1` record now bears the name `b`. -/
theorem stable_id_resolution_rename_safe_witness :
    find_existing_vm
        [{ pk := 7, name := "a", status := "active", vcpus := (1, 1),
           memory := none, disk := none, cluster := none,
           cfUuid := some "U1", cfHost := some "other", cfType := none,
           tags := [], primaryIp4 := none, primaryIp6 := none }]
        "b" "U1" "h1"
      = some
        { pk := 7, name := "a", status := "active", vcpus := (1, 1),
          memory := none, disk := none, cluster := none,
          cfUuid := some "U1", cfHost := some "other", cfType := none,
          tags := [], primaryIp4 := none, primaryIp6 := none }
  ∧ (sync_instance
        [{ pk := 7, name := "a", status := "active", vcpus := (1, 1),
           memory := none, disk := none, cluster := none,
           cfUuid := some "U1", cfHost := some "other", cfType := none,
           tags := [], primaryIp4 := none, primaryIp6 := none }]
        { name := "b", status := "Running", itype := "container",
          config := { volatileUuid := "U1", limitsCpu := none, limitsMemory := "" },
          devices := [] }
        none "h1" 99).2.2 = false
  ∧ (sync_instance
        [{ pk := 7, name := "a", status := "active", vcpus := (1, 1),
           memory := none, disk := none, cluster := none,
           cfUuid := some "U1", cfHost := some "other", cfType := none,
           tags := [], primaryIp4 := none, primaryIp6 := none }]
        { name := "b", status := "Running", itype := "container",
          config := { volatileUuid := "U1", limitsCpu := none, limitsMemory := "" },
          devices := [] }
        none "h1" 99).1.length = 1
  ∧ ((sync_instance
        [{ pk := 7, name := "a", status := "active", vcpus := (1, 1),
           memory := none, disk := none, cluster := none,
           cfUuid := some "U1", cfHost := some "other", cfType := none,
           tags := [], primaryIp4 := none, primaryIp6 := none }]
        { name := "b", status := "Running", itype := "container",
          config := { volatileUuid := "U1", limitsCpu := none, limitsMemory := "" },
          devices := [] }
        none "h1" 99).1.filter
      (fun r => r.cfUuid == some "U1")).map VMRec.name = ["b"] :=
  stable_id_resolution_rename_safe
    [{ pk := 7, name := "a", status := "active", vcpus := (1, 1),
       memory := none, disk := none, cluster := none,
       cfUuid := some "U1", cfHost := some "other", cfType := none,
       tags := [], primaryIp4 := none, primaryIp6 := none }]
    { name := "b", status := "Running", itype := "container",
      config := { volatileUuid := "U1", limitsCpu := none, limitsMemory := "" },
      devices := [] }
    none "h1" 99
    { pk := 7, name := "a", status := "active", vcpus := (1, 1),
      memory := none, disk := none, cluster := none,
      cfUuid := some "U1", cfHost := some "other", cfType := none,
      tags := [], primaryIp4 := none, primaryIp6 := none }
    (by decide) (by decide) (by simp) (by decide) (by decide)

/-! ### C7 — journal deduplication -/

/-- Helper: a list is a prefix of itself followed by anything. -/
theorem isPrefixOf_append_self (n b : List Char) : n.isPrefixOf (n ++ b) = true := by
  induction n with
  | nil => simp [List.isPrefixOf]
  | cons x n' ih => simp [List.isPrefixOf, ih]

/-- Helper: a prefix remains a prefix after extending the list. -/
theorem isPrefixOf_extend (n m t : List Char) (h : n.isPrefixOf m = true) :
    n.isPrefixOf (m ++ t) = true := by
  induction n generalizing m with
  | nil => simp [List.isPrefixOf]
  | cons x n' ih =>
    cases m with
    | nil => simp [List.isPrefixOf] at h
    | cons y m' =>
      simp only [List.isPrefixOf, Bool.and_eq_true] at h
      simp [List.isPrefixOf, h.1, ih m' h.2]

/-- Helper: the empty needle is contained in everything. -/
theorem listContains_nil (l : List Char) : listContains l [] = true := by
  rw [listContains.eq_def]
  simp [List.isPrefixOf]

/-- Helper: a needle is contained in any list that has it as an infix. -/
theorem listContains_middle (a n b : List Char) :
    listContains (a ++ n ++ b) n = true := by
  induction a with
  | nil =>
    rw [List.nil_append, listContains.eq_def]
    rw [if_pos (isPrefixOf_append_self n b)]
  | cons x a' ih =>
    rw [List.cons_append, List.cons_append, listContains.eq_def]
    by_cases hp : n.isPrefixOf (x :: (a' ++ n ++ b)) = true
    · rw [if_pos hp]
    · rw [if_neg hp]
      exact ih

/-- Helper: containment survives appending on the right. -/
theorem listContains_append_right (a t n : List Char)
    (h : listContains a n = true) : listContains (a ++ t) n = true := by
  induction a with
  | nil =>
    rw [listContains.eq_def] at h
    cases n with
    | nil => exact listContains_nil t
    | cons x n' => simp [List.isPrefixOf] at h
  | cons x a' ih =>
    rw [listContains.eq_def] at h
    rw [List.cons_append, listContains.eq_def]
    by_cases hp : n.isPrefixOf (x :: a') = true
    · have hx : n.isPrefixOf (x :: (a' ++ t)) = true := by
        have hext := isPrefixOf_extend n (x :: a') t hp
        rwa [List.cons_append] at hext
      rw [if_pos hx]
    · rw [if_neg hp] at h
      by_cases hp2 : n.isPrefixOf (x :: (a' ++ t)) = true
      · rw [if_pos hp2]
      · rw [if_neg hp2]
        exact ih h

/-- Helper: containment on strings survives appending on the right. -/
theorem strContains_append_right (x y n : String) (h : strContains x n = true) :
    strContains (x ++ y) n = true := by
  rw [strContains, String.data_append]
  exact listContains_append_right x.data y.data n.data h

/-- Helper: a string of the shape `x ++ ((pre ++ frag) ++ post)`
contains `frag`. -/
theorem strContains_middle (x pre frag post : String) :
    strContains (x ++ ((pre ++ frag) ++ post)) frag = true := by
  rw [strContains]
  have hd : (x ++ ((pre ++ frag) ++ post)).data
      = (x.data ++ pre.data) ++ frag.data ++ post.data := by
    simp [String.data_append, List.append_assoc]
  rw [hd]
  exact listContains_middle (x.data ++ pre.data) frag.data post.data

/-- Helper: the accumulator of `String.intercalate.go` only grows, so
containment in it is preserved. -/
theorem strContains_go (s needle : String) (l : List String) (acc : String)
    (h : strContains acc needle = true) :
    strContains (String.intercalate.go acc s l) needle = true := by
  induction l generalizing acc with
  | nil => exact h
  | cons a as ih =>
    rw [String.intercalate.go]
    exact ih (acc ++ s ++ a) (strContains_append_right _ _ _
      (strContains_append_right _ _ _ h))

/-- Helper: an intercalated line list whose fourth element carries
`frag` in its middle contains `frag`. -/
theorem strContains_intercalate_fourth (L0 L1 L2 pre frag post : String)
    (rest : List String) :
    strContains (String.intercalate "\n"
        (L0 :: L1 :: L2 :: ((pre ++ frag) ++ post) :: rest)) frag = true := by
  rw [String.intercalate]
  rw [String.intercalate.go, String.intercalate.go, String.intercalate.go]
  exact strContains_go _ _ rest _ (strContains_middle _ pre frag post)

/-- Helper: the comment built for an operation contains the dedupe
fragment (the truncated operation id) that the existence check looks
for. -/
theorem build_comments_contains_fragment (label : String) (op : OperationData)
    (hostName : String) :
    strContains (build_comments label op hostName) ((op.id.getD "").take 8)
      = true := by
  cases hid : op.id with
  | none =>
    have hd : (((none : Option String).getD "").take 8).data = [] := by decide
    rw [strContains, hd]
    exact listContains_nil _
  | some s =>
    rw [build_comments, hid]
    have hfrag : ((some s).getD "").take 8 = s.take 8 := rfl
    have hop : (some s).getD "N/A" = s := rfl
    rw [hfrag, hop]
    by_cases h2 : op.err.getD "" ≠ ""
    · rw [if_pos h2]
      by_cases h1 : op.description.getD "" ≠ "" ∧ op.description.getD "" ≠ label
      · rw [if_pos h1]
        simp only [List.cons_append, List.nil_append]
        exact strContains_intercalate_fourth _ _ _ _ _ _ _
      · rw [if_neg h1]
        simp only [List.cons_append, List.nil_append]
        exact strContains_intercalate_fourth _ _ _ _ _ _ _
    · rw [if_neg h2]
      by_cases h1 : op.description.getD "" ≠ "" ∧ op.description.getD "" ≠ label
      · rw [if_pos h1]
        exact strContains_intercalate_fourth _ _ _ _ _ _ _
      · rw [if_neg h1]
        exact strContains_intercalate_fourth _ _ _ _ _ _ _

/-- Helper: the entry just appended for an operation is found by the
dedupe check for that same operation. -/
theorem journal_entry_exists_append_self (entries : List JournalRec) (vmPk : ℕ)
    (op : OperationData) (opCreated : ℤ) (kind label hostName : String) :
    journal_entry_exists
        (entries ++ [{ vmPk := vmPk, kind := kind,
                       comments := build_comments label op hostName,
                       created := opCreated }])
        vmPk (op.id.getD "") opCreated = true := by
  rw [journal_entry_exists, List.any_append]
  have h1 : opCreated - 1 ≤ opCreated := by omega
  have h2 : opCreated ≤ opCreated + 1 := by omega
  simp [h1, h2, build_comments_contains_fragment]

/-- C7: journal deduplication.  Ingesting the same operation for the
same record twice adds at most one entry: the second ingestion is
always a no-op (returns the journal unchanged, creating nothing); when
the record resolves and no matching entry pre-exists, the first
ingestion appends exactly one entry; when a matching entry already lies
within the ±1-second window with the same fingerprint fragment,
ingestion skips creation entirely. -/
theorem journal_dedupe (store : List VMRec) (entries : List JournalRec)
    (instanceName hostName : String) (op : OperationData) (opCreated : ℤ) :
    create_journal_entry store
        (create_journal_entry store entries instanceName hostName op opCreated).1
        instanceName hostName op opCreated
      = ((create_journal_entry store entries instanceName hostName op opCreated).1,
         false)
  ∧ (∀ vm : VMRec, find_vm store instanceName hostName = some vm →
      journal_entry_exists entries vm.pk (op.id.getD "") opCreated = false →
      (create_journal_entry store entries instanceName hostName op opCreated).1.length
        = entries.length + 1
      ∧ (create_journal_entry store entries instanceName hostName op opCreated).2
        = true)
  ∧ (∀ vm : VMRec, find_vm store instanceName hostName = some vm →
      journal_entry_exists entries vm.pk (op.id.getD "") opCreated = true →
      create_journal_entry store entries instanceName hostName op opCreated
        = (entries, false)) := by
  rcases hf : find_vm store instanceName hostName with _ | vm
  · refine ⟨?_, ?_, ?_⟩
    · simp only [create_journal_entry, hf]
    · intro vm hvm
      cases hvm
    · intro vm hvm
      cases hvm
  · rcases hex : journal_entry_exists entries vm.pk (op.id.getD "") opCreated with _ | _
    · refine ⟨?_, ?_, ?_⟩
      · simp only [create_journal_entry, hf, hex]
        simp only [Bool.false_eq_true, if_false]
        simp only [journal_entry_exists_append_self, if_true]
      · intro vm' hvm' _
        have hv : vm' = vm := Option.some.inj hvm'.symm
        subst hv
        simp only [create_journal_entry, hf, hex]
        simp [Bool.false_eq_true, if_false]
      · intro vm' hvm' hex'
        have hv : vm' = vm := Option.some.inj hvm'.symm
        subst hv
        rw [hex] at hex'
        cases hex'
    · refine ⟨?_, ?_, ?_⟩
      · simp only [create_journal_entry, hf, hex, if_true]
      · intro vm' hvm' hex'
        have hv : vm' = vm := Option.some.inj hvm'.symm
        subst hv
        rw [hex] at hex'
        cases hex'
      · intro vm' hvm' _
        simp only [create_journal_entry, hf, hex, if_true]

/-- C7 (witness): ingesting operation `abcd1234efgh` for `vm1` of host
`h1` into an empty journal creates exactly one entry, and ingesting it
a second time changes nothing. -/
theorem journal_dedupe_witness :
    create_journal_entry
        [{ pk := 3, name := "vm1", status := "active", vcpus := (1, 1),
           memory := none, disk := none, cluster := none,
           cfUuid := some "u1", cfHost := some "h1", cfType := none,
           tags := ["incus-managed"], primaryIp4 := none, primaryIp6 := none }]
        (create_journal_entry
          [{ pk := 3, name := "vm1", status := "active", vcpus := (1, 1),
             memory := none, disk := none, cluster := none,
             cfUuid := some "u1", cfHost := some "h1", cfType := none,
             tags := ["incus-managed"], primaryIp4 := none, primaryIp6 := none }]
          [] "vm1" "h1"
          { id := some "abcd1234efgh", description := some "Starting instance",
            status := some "Success", err := none } 100).1
        "vm1" "h1"
        { id := some "abcd1234efgh", description := some "Starting instance",
          status := some "Success", err := none } 100
      = ((create_journal_entry
          [{ pk := 3, name := "vm1", status := "active", vcpus := (1, 1),
             memory := none, disk := none, cluster := none,
             cfUuid := some "u1", cfHost := some "h1", cfType := none,
             tags := ["incus-managed"], primaryIp4 := none, primaryIp6 := none }]
          [] "vm1" "h1"
          { id := some "abcd1234efgh", description := some "Starting instance",
            status := some "Success", err := none } 100).1, false)
  ∧ (create_journal_entry
        [{ pk := 3, name := "vm1", status := "active", vcpus := (1, 1),
           memory := none, disk := none, cluster := none,
           cfUuid := some "u1", cfHost := some "h1", cfType := none,
           tags := ["incus-managed"], primaryIp4 := none, primaryIp6 := none }]
        [] "vm1" "h1"
        { id := some "abcd1234efgh", description := some "Starting instance",
          status := some "Success", err := none } 100).1.length
      = ([] : List JournalRec).length + 1 :=
  ⟨(journal_dedupe _ [] "vm1" "h1"
      { id := some "abcd1234efgh", description := some "Starting instance",
        status := some "Success", err := none } 100).1,
   ((journal_dedupe _ [] "vm1" "h1"
      { id := some "abcd1234efgh", description := some "Starting instance",
        status := some "Success", err := none } 100).2.1
      { pk := 3, name := "vm1", status := "active", vcpus := (1, 1),
        memory := none, disk := none, cluster := none,
        cfUuid := some "u1", cfHost := some "h1", cfType := none,
        tags := ["incus-managed"], primaryIp4 := none, primaryIp6 := none }
      (by decide) (by decide)).1⟩

/-! ### C2 / C10 — primary-address arbitration -/

/-- Helper: saving a row never changes the stored primary keys. -/
theorem saveVM_pk_map (store : List VMRec) (v : VMRec) :
    (saveVM store v).map VMRec.pk = store.map VMRec.pk := by
  rw [saveVM, List.map_map]
  apply List.map_congr_left
  intro r _
  by_cases h : r.pk = v.pk <;> simp [h]

/-- Helper: a member of the store after a save is the saved row or an
untouched row with a different key. -/
theorem mem_saveVM {store : List VMRec} {v r' : VMRec} (h : r' ∈ saveVM store v) :
    r' = v ∨ (r' ∈ store ∧ r'.pk ≠ v.pk) := by
  rw [saveVM] at h
  rcases List.mem_map.1 h with ⟨x, hx, rfl⟩
  by_cases hpk : x.pk = v.pk
  · left
    rw [if_pos hpk]
  · right
    rw [if_neg hpk]
    exact ⟨hx, hpk⟩

/-- Helper: a save that does not change the observed field leaves the
store's image under that field unchanged. -/
theorem map_saveVM_of_eq {β : Type} (store : List VMRec) (v : VMRec)
    (f : VMRec → β) (h : ∀ r ∈ store, r.pk = v.pk → f v = f r) :
    (saveVM store v).map f = store.map f := by
  rw [saveVM, List.map_map]
  apply List.map_congr_left
  intro r hr
  by_cases hpk : r.pk = v.pk
  · simp only [Function.comp, if_pos hpk]
    exact h r hr hpk
  · simp only [Function.comp, if_neg hpk]

/-- Helper: looking a key up after a save finds the possibly-replaced
row at the same position. -/
theorem find?_pk_saveVM (store : List VMRec) (v : VMRec) (k : ℕ) :
    (saveVM store v).find? (fun r => r.pk == k)
      = (store.find? (fun r => r.pk == k)).map
          (fun r => if r.pk = v.pk then v else r) := by
  rw [saveVM]
  induction store with
  | nil => rfl
  | cons a rest ih =>
    rw [List.map_cons]
    by_cases hav : a.pk = v.pk
    · rcases hak : (a.pk == k) with _ | _
      · rw [List.find?_cons_of_neg _ (by simp [if_pos hav, ← hav, hak]),
          List.find?_cons_of_neg _ (by simp [hak]), ih]
      · rw [List.find?_cons_of_pos _ (by simp [if_pos hav, ← hav, hak]),
          List.find?_cons_of_pos _ (by simp [hak])]
        simp [if_pos hav]
    · rcases hak : (a.pk == k) with _ | _
      · rw [List.find?_cons_of_neg _ (by simp [if_neg hav, hak]),
          List.find?_cons_of_neg _ (by simp [hak]), ih]
      · rw [List.find?_cons_of_pos _ (by simp [if_neg hav, hak]),
          List.find?_cons_of_pos _ (by simp [hak])]
        simp [if_neg hav]

/-- Helper: the head given by `head?` is a member. -/
theorem mem_of_head? {α : Type} {l : List α} {a : α} (h : l.head? = some a) :
    a ∈ l := by
  cases l with
  | nil => cases h
  | cons x t =>
    cases h
    exact List.mem_cons_self _ _

/-- Helper: when each family's candidate is absent or already the
record's primary, `_set_primary_ips` writes nothing. -/
theorem set_primary_ips_noop (store : List VMRec) (vmPk : ℕ) (ip4 ip6 : Option ℕ)
    (vmF : VMRec) (hfind : store.find? (fun r => r.pk == vmPk) = some vmF)
    (h4 : ip4 = none ∨ ip4 = vmF.primaryIp4) (h6 : ip6 = none ∨ ip6 = vmF.primaryIp6) :
    set_primary_ips store vmPk ip4 ip6 = (store, []) := by
  have h4e : ∀ p, ip4 = some p → vmF.primaryIp4 = some p := by
    intro p hp
    rcases h4 with h | h
    · rw [hp] at h
      cases h
    · rw [← h, hp]
  have h6e : ∀ p, ip6 = some p → vmF.primaryIp6 = some p := by
    intro p hp
    rcases h6 with h | h
    · rw [hp] at h
      cases h
    · rw [← h, hp]
  rcases ip4 with _ | p4 <;> rcases ip6 with _ | p6
  · simp [set_primary_ips, hfind]
  · simp [set_primary_ips, hfind, h6e p6 rfl]
  · simp [set_primary_ips, hfind, h4e p4 rfl]
  · simp [set_primary_ips, hfind, h4e p4 rfl, h6e p6 rfl]

/-- Helper: the complete shape of one `_set_primary_ips` call on a store
with distinct keys: the updated row `vmF` carries each family's
candidate (or the old primary when the family has no candidate), rows of
other keys never gain a candidate as primary, a family without a
candidate is untouched store-wide, and a call where nothing changes
writes nothing. -/
theorem set_primary_ips_shape (store : List VMRec) (vmPk : ℕ) (ip4 ip6 : Option ℕ)
    (vm0 : VMRec) (hN : (store.map VMRec.pk).Nodup)
    (hfind : store.find? (fun r => r.pk == vmPk) = some vm0) :
    ∃ vmF : VMRec,
      (set_primary_ips store vmPk ip4 ip6).1.find? (fun r => r.pk == vmPk) = some vmF
      ∧ vmF.primaryIp4 = ip4.or vm0.primaryIp4
      ∧ vmF.primaryIp6 = ip6.or vm0.primaryIp6
      ∧ (ip4 = none →
          (set_primary_ips store vmPk ip4 ip6).1.map VMRec.primaryIp4
            = store.map VMRec.primaryIp4)
      ∧ (ip6 = none →
          (set_primary_ips store vmPk ip4 ip6).1.map VMRec.primaryIp6
            = store.map VMRec.primaryIp6)
      ∧ ((ip4 = none ∨ ip4 = vm0.primaryIp4) → (ip6 = none ∨ ip6 = vm0.primaryIp6) →
          set_primary_ips store vmPk ip4 ip6 = (store, []))
      ∧ (∀ r ∈ (set_primary_ips store vmPk ip4 ip6).1, r.pk = vm0.pk → r = vmF)
      ∧ (∀ p4, ip4 = some p4 →
          (∀ r ∈ store, ∀ s ∈ store, r.primaryIp4 = some p4 → s.primaryIp4 = some p4 →
            r = s) →
          ∀ r ∈ (set_primary_ips store vmPk ip4 ip6).1, r.pk ≠ vm0.pk →
            r.primaryIp4 ≠ some p4)
      ∧ (∀ p6, ip6 = some p6 →
          (∀ r ∈ store, ∀ s ∈ store, r.primaryIp6 = some p6 → s.primaryIp6 = some p6 →
            r = s) →
          ∀ r ∈ (set_primary_ips store vmPk ip4 ip6).1, r.pk ≠ vm0.pk →
            r.primaryIp6 ≠ some p6) := by
  have hvm0 : vm0 ∈ store := List.mem_of_find?_eq_some hfind
  have hinj := List.inj_on_of_nodup_map hN
  have hvmeq : ∀ r ∈ store, r.pk = vm0.pk → r = vm0 := fun r hr h => hinj hr hvm0 h
  have hstep_find : ∀ (st : List VMRec) (v : VMRec),
      st.find? (fun r => r.pk == vmPk) = some vm0 → v.pk = vm0.pk →
      (saveVM st v).find? (fun r => r.pk == vmPk) = some v := by
    intro st v h hv
    rw [find?_pk_saveVM, h]
    simp [hv]
  have hstep_find_ne : ∀ (st : List VMRec) (v : VMRec),
      st.find? (fun r => r.pk == vmPk) = some vm0 → v.pk ≠ vm0.pk →
      (saveVM st v).find? (fun r => r.pk == vmPk) = some vm0 := by
    intro st v h hv
    rw [find?_pk_saveVM, h]
    simp [Ne.symm hv]
  rcases ip4 with _ | p4
  -- ==================== ip4 = none ====================
  · rcases ip6 with _ | p6
    -- case 1: ip6 = none
    · have hres : set_primary_ips store vmPk none none = (store, []) := by
        simp [set_primary_ips, hfind]
      rw [hres]
      refine ⟨vm0, ?_, ?_, ?_, ?_, ?_, ?_, ?_, ?_, ?_⟩
      · exact hfind
      · rfl
      · rfl
      · intro _
        rfl
      · intro _
        rfl
      · intro _ _
        rfl
      · intro r hr h
        exact hvmeq r hr h
      · intro p hp
        cases hp
      · intro p hp
        cases hp
    · by_cases h6e : vm0.primaryIp6 = some p6
      -- case 2: ip6 candidate already primary on vm0
      · have hres : set_primary_ips store vmPk none (some p6) = (store, []) := by
          simp [set_primary_ips, hfind, h6e]
        rw [hres]
        refine ⟨vm0, ?_, ?_, ?_, ?_, ?_, ?_, ?_, ?_, ?_⟩
        · exact hfind
        · rfl
        · rw [Option.or_some]
          exact h6e
        · intro _
          rfl
        · intro hp
          cases hp
        · intro _ _
          rfl
        · intro r hr h
          exact hvmeq r hr h
        · intro p hp
          cases hp
        · intro p6' h6' hu r hr hne hip
          have h6'' : p6' = p6 := (Option.some.inj h6').symm
          subst h6''
          exact hne (congrArg VMRec.pk (hu r hr vm0 hvm0 hip h6e))
      · rcases ho6 : (store.filter
            (fun o => o.primaryIp6 == some p6 && o.pk != vm0.pk)).head? with _ | o6
        -- case 3: ip6 set, no other holder
        · have hres : set_primary_ips store vmPk none (some p6)
              = (saveVM store { vm0 with primaryIp6 := some p6 }, [vm0.pk]) := by
            simp [set_primary_ips, hfind, h6e, ho6]
          have hnone6 : ∀ r ∈ store, r.pk ≠ vm0.pk → r.primaryIp6 ≠ some p6 := by
            intro r hr hne hip
            have hfe := List.filter_eq_nil_iff.1 (List.head?_eq_none_iff.1 ho6)
            exact hfe r hr (by simp [hip, hne])
          rw [hres]
          refine ⟨{ vm0 with primaryIp6 := some p6 }, ?_, ?_, ?_, ?_, ?_, ?_, ?_, ?_, ?_⟩
          · exact hstep_find store _ hfind rfl
          · rfl
          · rfl
          · intro _
            apply map_saveVM_of_eq
            intro r hr hpk
            rw [hvmeq r hr (by simpa using hpk)]
          · intro hp
            cases hp
          · intro _ hc
            rcases hc with h | h
            · cases h
            · exact absurd h.symm h6e
          · intro r hr hpk
            rcases mem_saveVM hr with rfl | ⟨hr2, hne⟩
            · rfl
            · exact absurd hpk (by simpa using hne)
          · intro p hp
            cases hp
          · intro p6' h6' _ r hr hne hip
            have h6'' : p6' = p6 := (Option.some.inj h6').symm
            subst h6''
            rcases mem_saveVM hr with rfl | ⟨hr2, _⟩
            · exact hne rfl
            · exact hnone6 r hr2 hne hip
        -- case 4: ip6 set, stealing from o6
        · have ho6f := List.mem_filter.1 (mem_of_head? ho6)
          have ho6st : o6 ∈ store := ho6f.1
          have ho6b : o6.primaryIp6 = some p6 ∧ ¬ o6.pk = vm0.pk := by
            simpa using ho6f.2
          have hres : set_primary_ips store vmPk none (some p6)
              = (saveVM (saveVM store { o6 with primaryIp6 := none })
                   { vm0 with primaryIp6 := some p6 }, [o6.pk, vm0.pk]) := by
            simp [set_primary_ips, hfind, h6e, ho6]
          rw [hres]
          refine ⟨{ vm0 with primaryIp6 := some p6 }, ?_, ?_, ?_, ?_, ?_, ?_, ?_, ?_, ?_⟩
          · refine hstep_find _ _ (hstep_find_ne store _ hfind ?_) rfl
            simpa using ho6b.2
          · rfl
          · rfl
          · intro _
            rw [map_saveVM_of_eq _ _ _ (by
              intro r hr hpk
              rcases mem_saveVM hr with rfl | ⟨hr2, _⟩
              · exact absurd (by simpa using hpk) ho6b.2
              · rw [hvmeq r hr2 (by simpa using hpk)])]
            apply map_saveVM_of_eq
            intro r hr hpk
            rw [hinj hr ho6st (by simpa using hpk)]
          · intro hp
            cases hp
          · intro _ hc
            rcases hc with h | h
            · cases h
            · exact absurd h.symm h6e
          · intro r hr hpk
            rcases mem_saveVM hr with rfl | ⟨hr2, hne⟩
            · rfl
            · exact absurd hpk (by simpa using hne)
          · intro p hp
            cases hp
          · intro p6' h6' hu r hr hne hip
            have h6'' : p6' = p6 := (Option.some.inj h6').symm
            subst h6''
            rcases mem_saveVM hr with rfl | ⟨hr2, hne2⟩
            · exact hne rfl
            · rcases mem_saveVM hr2 with rfl | ⟨hr3, hne3⟩
              · simp at hip
              · exact hne3 (by rw [hu r hr3 o6 ho6st hip ho6b.1])
  -- ==================== ip4 = some p4 ====================
  · by_cases h4e : vm0.primaryIp4 = some p4
    -- ---------- stage 4 no-op (already primary) ----------
    · rcases ip6 with _ | p6
      -- case 5a
      · have hres : set_primary_ips store vmPk (some p4) none = (store, []) := by
          simp [set_primary_ips, hfind, h4e]
        rw [hres]
        refine ⟨vm0, ?_, ?_, ?_, ?_, ?_, ?_, ?_, ?_, ?_⟩
        · exact hfind
        · rw [Option.or_some]
          exact h4e
        · rfl
        · intro hp
          cases hp
        · intro _
          rfl
        · intro _ _
          rfl
        · intro r hr h
          exact hvmeq r hr h
        · intro p4' h4' hu r hr hne hip
          have h4'' : p4' = p4 := (Option.some.inj h4').symm
          subst h4''
          exact hne (congrArg VMRec.pk (hu r hr vm0 hvm0 hip h4e))
        · intro p hp
          cases hp
      · by_cases h6e : vm0.primaryIp6 = some p6
        -- case 5b
        · have hres : set_primary_ips store vmPk (some p4) (some p6) = (store, []) := by
            simp [set_primary_ips, hfind, h4e, h6e]
          rw [hres]
          refine ⟨vm0, ?_, ?_, ?_, ?_, ?_, ?_, ?_, ?_, ?_⟩
          · exact hfind
          · rw [Option.or_some]
            exact h4e
          · rw [Option.or_some]
            exact h6e
          · intro hp
            cases hp
          · intro hp
            cases hp
          · intro _ _
            rfl
          · intro r hr h
            exact hvmeq r hr h
          · intro p4' h4' hu r hr hne hip
            have h4'' : p4' = p4 := (Option.some.inj h4').symm
            subst h4''
            exact hne (congrArg VMRec.pk (hu r hr vm0 hvm0 hip h4e))
          · intro p6' h6' hu r hr hne hip
            have h6'' : p6' = p6 := (Option.some.inj h6').symm
            subst h6''
            exact hne (congrArg VMRec.pk (hu r hr vm0 hvm0 hip h6e))
        · rcases ho6 : (store.filter
              (fun o => o.primaryIp6 == some p6 && o.pk != vm0.pk)).head? with _ | o6
          -- case 5c
          · have hres : set_primary_ips store vmPk (some p4) (some p6)
                = (saveVM store { vm0 with primaryIp6 := some p6 }, [vm0.pk]) := by
              simp [set_primary_ips, hfind, h4e, h6e, ho6]
            have hnone6 : ∀ r ∈ store, r.pk ≠ vm0.pk → r.primaryIp6 ≠ some p6 := by
              intro r hr hne hip
              have hfe := List.filter_eq_nil_iff.1 (List.head?_eq_none_iff.1 ho6)
              exact hfe r hr (by simp [hip, hne])
            rw [hres]
            refine ⟨{ vm0 with primaryIp6 := some p6 }, ?_, ?_, ?_, ?_, ?_, ?_, ?_, ?_, ?_⟩
            · exact hstep_find store _ hfind rfl
            · show vm0.primaryIp4 = (some p4).or vm0.primaryIp4
              rw [Option.or_some]
              exact h4e
            · rfl
            · intro hp
              cases hp
            · intro hp
              cases hp
            · intro _ hc
              rcases hc with h | h
              · cases h
              · exact absurd h.symm h6e
            · intro r hr hpk
              rcases mem_saveVM hr with rfl | ⟨hr2, hne⟩
              · rfl
              · exact absurd hpk (by simpa using hne)
            · intro p4' h4' hu r hr hne hip
              have h4'' : p4' = p4 := (Option.some.inj h4').symm
              subst h4''
              rcases mem_saveVM hr with rfl | ⟨hr2, _⟩
              · exact hne rfl
              · exact hne (congrArg VMRec.pk (hu r hr2 vm0 hvm0 hip h4e))
            · intro p6' h6' _ r hr hne hip
              have h6'' : p6' = p6 := (Option.some.inj h6').symm
              subst h6''
              rcases mem_saveVM hr with rfl | ⟨hr2, _⟩
              · exact hne rfl
              · exact hnone6 r hr2 hne hip
          -- case 5d
          · have ho6f := List.mem_filter.1 (mem_of_head? ho6)
            have ho6st : o6 ∈ store := ho6f.1
            have ho6b : o6.primaryIp6 = some p6 ∧ ¬ o6.pk = vm0.pk := by
              simpa using ho6f.2
            have hres : set_primary_ips store vmPk (some p4) (some p6)
                = (saveVM (saveVM store { o6 with primaryIp6 := none })
                     { vm0 with primaryIp6 := some p6 }, [o6.pk, vm0.pk]) := by
              simp [set_primary_ips, hfind, h4e, h6e, ho6]
            rw [hres]
            refine ⟨{ vm0 with primaryIp6 := some p6 }, ?_, ?_, ?_, ?_, ?_, ?_, ?_, ?_, ?_⟩
            · refine hstep_find _ _ (hstep_find_ne store _ hfind ?_) rfl
              simpa using ho6b.2
            · show vm0.primaryIp4 = (some p4).or vm0.primaryIp4
              rw [Option.or_some]
              exact h4e
            · rfl
            · intro hp
              cases hp
            · intro hp
              cases hp
            · intro _ hc
              rcases hc with h | h
              · cases h
              · exact absurd h.symm h6e
            · intro r hr hpk
              rcases mem_saveVM hr with rfl | ⟨hr2, hne⟩
              · rfl
              · exact absurd hpk (by simpa using hne)
            · intro p4' h4' hu r hr hne hip
              have h4'' : p4' = p4 := (Option.some.inj h4').symm
              subst h4''
              rcases mem_saveVM hr with rfl | ⟨hr2, hne2⟩
              · exact hne rfl
              · rcases mem_saveVM hr2 with rfl | ⟨hr3, hne3⟩
                · exact absurd (congrArg VMRec.pk
                    (hu o6 ho6st vm0 hvm0 (by simpa using hip) h4e)) ho6b.2
                · exact hne (congrArg VMRec.pk (hu r hr3 vm0 hvm0 hip h4e))
            · intro p6' h6' hu r hr hne hip
              have h6'' : p6' = p6 := (Option.some.inj h6').symm
              subst h6''
              rcases mem_saveVM hr with rfl | ⟨hr2, hne2⟩
              · exact hne rfl
              · rcases mem_saveVM hr2 with rfl | ⟨hr3, hne3⟩
                · simp at hip
                · exact hne3 (by rw [hu r hr3 o6 ho6st hip ho6b.1])
    -- ---------- stage 4 updates ----------
    · rcases ho4 : (store.filter
          (fun o => o.primaryIp4 == some p4 && o.pk != vm0.pk)).head? with _ | o4
      -- ----- no other holder of p4 -----
      · have hnone4 : ∀ r ∈ store, r.pk ≠ vm0.pk → r.primaryIp4 ≠ some p4 := by
          intro r hr hne hip
          have hfe := List.filter_eq_nil_iff.1 (List.head?_eq_none_iff.1 ho4)
          exact hfe r hr (by simp [hip, hne])
        rcases ip6 with _ | p6
        -- case 6a
        · have hres : set_primary_ips store vmPk (some p4) none
              = (saveVM store { vm0 with primaryIp4 := some p4 }, [vm0.pk]) := by
            simp [set_primary_ips, hfind, h4e, ho4]
          rw [hres]
          refine ⟨{ vm0 with primaryIp4 := some p4 }, ?_, ?_, ?_, ?_, ?_, ?_, ?_, ?_, ?_⟩
          · exact hstep_find store _ hfind rfl
          · rfl
          · rfl
          · intro hp
            cases hp
          · intro _
            apply map_saveVM_of_eq
            intro r hr hpk
            rw [hvmeq r hr (by simpa using hpk)]
          · intro hc _
            rcases hc with h | h
            · cases h
            · exact absurd h.symm h4e
          · intro r hr hpk
            rcases mem_saveVM hr with rfl | ⟨hr2, hne⟩
            · rfl
            · exact absurd hpk (by simpa using hne)
          · intro p4' h4' _ r hr hne hip
            have h4'' : p4' = p4 := (Option.some.inj h4').symm
            subst h4''
            rcases mem_saveVM hr with rfl | ⟨hr2, _⟩
            · exact hne rfl
            · exact hnone4 r hr2 hne hip
          · intro p hp
            cases hp
        · by_cases h6e : vm0.primaryIp6 = some p6
          -- case 6b
          · have hres : set_primary_ips store vmPk (some p4) (some p6)
                = (saveVM store { vm0 with primaryIp4 := some p4 }, [vm0.pk]) := by
              simp [set_primary_ips, hfind, h4e, ho4, h6e]
            rw [hres]
            refine ⟨{ vm0 with primaryIp4 := some p4 }, ?_, ?_, ?_, ?_, ?_, ?_, ?_, ?_, ?_⟩
            · exact hstep_find store _ hfind rfl
            · rfl
            · show vm0.primaryIp6 = (some p6).or vm0.primaryIp6
              rw [Option.or_some]
              exact h6e
            · intro hp
              cases hp
            · intro hp
              cases hp
            · intro hc _
              rcases hc with h | h
              · cases h
              · exact absurd h.symm h4e
            · intro r hr hpk
              rcases mem_saveVM hr with rfl | ⟨hr2, hne⟩
              · rfl
              · exact absurd hpk (by simpa using hne)
            · intro p4' h4' _ r hr hne hip
              have h4'' : p4' = p4 := (Option.some.inj h4').symm
              subst h4''
              rcases mem_saveVM hr with rfl | ⟨hr2, _⟩
              · exact hne rfl
              · exact hnone4 r hr2 hne hip
            · intro p6' h6' hu r hr hne hip
              have h6'' : p6' = p6 := (Option.some.inj h6').symm
              subst h6''
              rcases mem_saveVM hr with rfl | ⟨hr2, _⟩
              · exact hne rfl
              · exact hne (congrArg VMRec.pk (hu r hr2 vm0 hvm0 hip h6e))
          · rcases ho6 : (store.filter
                (fun o => o.primaryIp6 == some p6 && o.pk != vm0.pk)).head? with _ | o6
            -- case 6c
            · have hnone6 : ∀ r ∈ store, r.pk ≠ vm0.pk → r.primaryIp6 ≠ some p6 := by
                intro r hr hne hip
                have hfe := List.filter_eq_nil_iff.1 (List.head?_eq_none_iff.1 ho6)
                exact hfe r hr (by simp [hip, hne])
              have hres : set_primary_ips store vmPk (some p4) (some p6)
                  = (saveVM store
                      { { vm0 with primaryIp4 := some p4 } with primaryIp6 := some p6 },
                     [vm0.pk]) := by
                simp [set_primary_ips, hfind, h4e, ho4, h6e, ho6]
              rw [hres]
              refine ⟨{ { vm0 with primaryIp4 := some p4 } with primaryIp6 := some p6 },
                ?_, ?_, ?_, ?_, ?_, ?_, ?_, ?_, ?_⟩
              · exact hstep_find store _ hfind rfl
              · rfl
              · rfl
              · intro hp
                cases hp
              · intro hp
                cases hp
              · intro hc _
                rcases hc with h | h
                · cases h
                · exact absurd h.symm h4e
              · intro r hr hpk
                rcases mem_saveVM hr with rfl | ⟨hr2, hne⟩
                · rfl
                · exact absurd hpk (by simpa using hne)
              · intro p4' h4' _ r hr hne hip
                have h4'' : p4' = p4 := (Option.some.inj h4').symm
                subst h4''
                rcases mem_saveVM hr with rfl | ⟨hr2, _⟩
                · exact hne rfl
                · exact hnone4 r hr2 hne hip
              · intro p6' h6' _ r hr hne hip
                have h6'' : p6' = p6 := (Option.some.inj h6').symm
                subst h6''
                rcases mem_saveVM hr with rfl | ⟨hr2, _⟩
                · exact hne rfl
                · exact hnone6 r hr2 hne hip
            -- case 6d
            · have ho6f := List.mem_filter.1 (mem_of_head? ho6)
              have ho6st : o6 ∈ store := ho6f.1
              have ho6b : o6.primaryIp6 = some p6 ∧ ¬ o6.pk = vm0.pk := by
                simpa using ho6f.2
              have hres : set_primary_ips store vmPk (some p4) (some p6)
                  = (saveVM (saveVM store { o6 with primaryIp6 := none })
                      { { vm0 with primaryIp4 := some p4 } with primaryIp6 := some p6 },
                     [o6.pk, vm0.pk]) := by
                simp [set_primary_ips, hfind, h4e, ho4, h6e, ho6]
              rw [hres]
              refine ⟨{ { vm0 with primaryIp4 := some p4 } with primaryIp6 := some p6 },
                ?_, ?_, ?_, ?_, ?_, ?_, ?_, ?_, ?_⟩
              · refine hstep_find _ _ (hstep_find_ne store _ hfind ?_) rfl
                simpa using ho6b.2
              · rfl
              · rfl
              · intro hp
                cases hp
              · intro hp
                cases hp
              · intro hc _
                rcases hc with h | h
                · cases h
                · exact absurd h.symm h4e
              · intro r hr hpk
                rcases mem_saveVM hr with rfl | ⟨hr2, hne⟩
                · rfl
                · exact absurd hpk (by simpa using hne)
              · intro p4' h4' _ r hr hne hip
                have h4'' : p4' = p4 := (Option.some.inj h4').symm
                subst h4''
                rcases mem_saveVM hr with rfl | ⟨hr2, hne2⟩
                · exact hne rfl
                · rcases mem_saveVM hr2 with rfl | ⟨hr3, hne3⟩
                  · exact hnone4 o6 ho6st (by simpa using ho6b.2) (by simpa using hip)
                  · exact hnone4 r hr3 hne hip
              · intro p6' h6' hu r hr hne hip
                have h6'' : p6' = p6 := (Option.some.inj h6').symm
                subst h6''
                rcases mem_saveVM hr with rfl | ⟨hr2, hne2⟩
                · exact hne rfl
                · rcases mem_saveVM hr2 with rfl | ⟨hr3, hne3⟩
                  · simp at hip
                  · exact hne3 (by rw [hu r hr3 o6 ho6st hip ho6b.1])
      -- ----- stealing p4 from o4 -----
      · have ho4f := List.mem_filter.1 (mem_of_head? ho4)
        have ho4st : o4 ∈ store := ho4f.1
        have ho4b : o4.primaryIp4 = some p4 ∧ ¬ o4.pk = vm0.pk := by
          simpa using ho4f.2
        have hfind1 : (saveVM store { o4 with primaryIp4 := none }).find?
            (fun r => r.pk == vmPk) = some vm0 := by
          refine hstep_find_ne store _ hfind ?_
          simpa using ho4b.2
        have hmem14 : (∀ r ∈ store, ∀ s ∈ store, r.primaryIp4 = some p4 →
              s.primaryIp4 = some p4 → r = s) →
            ∀ r ∈ saveVM store { o4 with primaryIp4 := none },
              r.pk ≠ vm0.pk → r.primaryIp4 ≠ some p4 := by
          intro hu r hr hne hip
          rcases mem_saveVM hr with rfl | ⟨hr2, hne2⟩
          · simp at hip
          · exact hne2 (by rw [hu r hr2 o4 ho4st hip ho4b.1])
        rcases ip6 with _ | p6
        -- case 7a
        · have hres : set_primary_ips store vmPk (some p4) none
              = (saveVM (saveVM store { o4 with primaryIp4 := none })
                  { vm0 with primaryIp4 := some p4 }, [o4.pk, vm0.pk]) := by
            simp [set_primary_ips, hfind, h4e, ho4]
          rw [hres]
          refine ⟨{ vm0 with primaryIp4 := some p4 }, ?_, ?_, ?_, ?_, ?_, ?_, ?_, ?_, ?_⟩
          · exact hstep_find _ _ hfind1 rfl
          · rfl
          · rfl
          · intro hp
            cases hp
          · intro _
            rw [map_saveVM_of_eq _ _ _ (by
              intro r hr hpk
              rcases mem_saveVM hr with rfl | ⟨hr2, _⟩
              · exact absurd (by simpa using hpk) ho4b.2
              · rw [hvmeq r hr2 (by simpa using hpk)])]
            apply map_saveVM_of_eq
            intro r hr hpk
            rw [hinj hr ho4st (by simpa using hpk)]
          · intro hc _
            rcases hc with h | h
            · cases h
            · exact absurd h.symm h4e
          · intro r hr hpk
            rcases mem_saveVM hr with rfl | ⟨hr2, hne⟩
            · rfl
            · exact absurd hpk (by simpa using hne)
          · intro p4' h4' hu r hr hne hip
            have h4'' : p4' = p4 := (Option.some.inj h4').symm
            subst h4''
            rcases mem_saveVM hr with rfl | ⟨hr2, hne2⟩
            · exact hne rfl
            · exact hmem14 hu r hr2 hne hip
          · intro p hp
            cases hp
        · by_cases h6e : vm0.primaryIp6 = some p6
          -- case 7b
          · have hres : set_primary_ips store vmPk (some p4) (some p6)
                = (saveVM (saveVM store { o4 with primaryIp4 := none })
                    { vm0 with primaryIp4 := some p4 }, [o4.pk, vm0.pk]) := by
              simp [set_primary_ips, hfind, h4e, ho4, h6e]
            rw [hres]
            refine ⟨{ vm0 with primaryIp4 := some p4 }, ?_, ?_, ?_, ?_, ?_, ?_, ?_, ?_, ?_⟩
            · exact hstep_find _ _ hfind1 rfl
            · rfl
            · show vm0.primaryIp6 = (some p6).or vm0.primaryIp6
              rw [Option.or_some]
              exact h6e
            · intro hp
              cases hp
            · intro hp
              cases hp
            · intro hc _
              rcases hc with h | h
              · cases h
              · exact absurd h.symm h4e
            · intro r hr hpk
              rcases mem_saveVM hr with rfl | ⟨hr2, hne⟩
              · rfl
              · exact absurd hpk (by simpa using hne)
            · intro p4' h4' hu r hr hne hip
              have h4'' : p4' = p4 := (Option.some.inj h4').symm
              subst h4''
              rcases mem_saveVM hr with rfl | ⟨hr2, hne2⟩
              · exact hne rfl
              · exact hmem14 hu r hr2 hne hip
            · intro p6' h6' hu r hr hne hip
              have h6'' : p6' = p6 := (Option.some.inj h6').symm
              subst h6''
              rcases mem_saveVM hr with rfl | ⟨hr2, hne2⟩
              · exact hne rfl
              · rcases mem_saveVM hr2 with rfl | ⟨hr3, hne3⟩
                · exact absurd (congrArg VMRec.pk
                    (hu o4 ho4st vm0 hvm0 (by simpa using hip) h6e)) ho4b.2
                · exact hne (congrArg VMRec.pk (hu r hr3 vm0 hvm0 hip h6e))
          · rcases ho6 : ((saveVM store { o4 with primaryIp4 := none }).filter
                (fun o => o.primaryIp6 == some p6 && o.pk != vm0.pk)).head? with _ | o6
            -- case 7c
            · have hnone6 : ∀ r ∈ saveVM store { o4 with primaryIp4 := none },
                  r.pk ≠ vm0.pk → r.primaryIp6 ≠ some p6 := by
                intro r hr hne hip
                have hfe := List.filter_eq_nil_iff.1 (List.head?_eq_none_iff.1 ho6)
                exact hfe r hr (by simp [hip, hne])
              have hres : set_primary_ips store vmPk (some p4) (some p6)
                  = (saveVM (saveVM store { o4 with primaryIp4 := none })
                      { { vm0 with primaryIp4 := some p4 } with primaryIp6 := some p6 },
                     [o4.pk, vm0.pk]) := by
                simp [set_primary_ips, hfind, h4e, ho4, h6e, ho6]
              rw [hres]
              refine ⟨{ { vm0 with primaryIp4 := some p4 } with primaryIp6 := some p6 },
                ?_, ?_, ?_, ?_, ?_, ?_, ?_, ?_, ?_⟩
              · exact hstep_find _ _ hfind1 rfl
              · rfl
              · rfl
              · intro hp
                cases hp
              · intro hp
                cases hp
              · intro hc _
                rcases hc with h | h
                · cases h
                · exact absurd h.symm h4e
              · intro r hr hpk
                rcases mem_saveVM hr with rfl | ⟨hr2, hne⟩
                · rfl
                · exact absurd hpk (by simpa using hne)
              · intro p4' h4' hu r hr hne hip
                have h4'' : p4' = p4 := (Option.some.inj h4').symm
                subst h4''
                rcases mem_saveVM hr with rfl | ⟨hr2, hne2⟩
                · exact hne rfl
                · exact hmem14 hu r hr2 hne hip
              · intro p6' h6' _ r hr hne hip
                have h6'' : p6' = p6 := (Option.some.inj h6').symm
                subst h6''
                rcases mem_saveVM hr with rfl | ⟨hr2, hne2⟩
                · exact hne rfl
                · exact hnone6 r hr2 hne hip
            -- case 7d
            · have ho6f := List.mem_filter.1 (mem_of_head? ho6)
              have ho6st1 : o6 ∈ saveVM store { o4 with primaryIp4 := none } := ho6f.1
              have ho6b : o6.primaryIp6 = some p6 ∧ ¬ o6.pk = vm0.pk := by
                simpa using ho6f.2
              have hfind2 : (saveVM (saveVM store { o4 with primaryIp4 := none })
                  { o6 with primaryIp6 := none }).find? (fun r => r.pk == vmPk)
                    = some vm0 := by
                refine hstep_find_ne _ _ hfind1 ?_
                simpa using ho6b.2
              have hres : set_primary_ips store vmPk (some p4) (some p6)
                  = (saveVM (saveVM (saveVM store { o4 with primaryIp4 := none })
                        { o6 with primaryIp6 := none })
                      { { vm0 with primaryIp4 := some p4 } with primaryIp6 := some p6 },
                     [o4.pk, o6.pk, vm0.pk]) := by
                simp [set_primary_ips, hfind, h4e, ho4, h6e, ho6]
              rw [hres]
              refine ⟨{ { vm0 with primaryIp4 := some p4 } with primaryIp6 := some p6 },
                ?_, ?_, ?_, ?_, ?_, ?_, ?_, ?_, ?_⟩
              · exact hstep_find _ _ hfind2 rfl
              · rfl
              · rfl
              · intro hp
                cases hp
              · intro hp
                cases hp
              · intro hc _
                rcases hc with h | h
                · cases h
                · exact absurd h.symm h4e
              · intro r hr hpk
                rcases mem_saveVM hr with rfl | ⟨hr2, hne⟩
                · rfl
                · exact absurd hpk (by simpa using hne)
              · intro p4' h4' hu r hr hne hip
                have h4'' : p4' = p4 := (Option.some.inj h4').symm
                subst h4''
                rcases mem_saveVM hr with rfl | ⟨hr2, hne2⟩
                · exact hne rfl
                · rcases mem_saveVM hr2 with rfl | ⟨hr3, hne3⟩
                  · exact hmem14 hu o6 ho6st1 (by simpa using ho6b.2)
                      (by simpa using hip)
                  · exact hmem14 hu r hr3 hne hip
              · intro p6' h6' hu r hr hne hip
                have h6'' : p6' = p6 := (Option.some.inj h6').symm
                subst h6''
                rcases mem_saveVM hr with rfl | ⟨hr2, hne2⟩
                · exact hne rfl
                · rcases mem_saveVM hr2 with rfl | ⟨hr3, hne3⟩
                  · simp at hip
                  · rcases mem_saveVM hr3 with rfl | ⟨hr4, hne4⟩
                    · rcases mem_saveVM ho6st1 with h | ⟨ho6store, hne5⟩
                      · exact hne3 (by rw [h])
                      · exact absurd (congrArg VMRec.pk
                          (hu o4 ho4st o6 ho6store (by simpa using hip) ho6b.1)).symm
                          (by simpa using hne5)
                    · rcases mem_saveVM ho6st1 with h | ⟨ho6store, hne5⟩
                      · refine hne4 ?_
                        rw [hu r hr4 o4 ho4st hip (by
                          have hx := ho6b.1
                          rw [h] at hx
                          simpa using hx)]
                      · exact hne3 (by rw [hu r hr4 o6 ho6store hip ho6b.1])

/- ===================== C2: primary-address exclusivity ===================== -/

/-- Witness-construction helper: a VM row with the given key, name and
primary addresses. -/
def mkVMW (pk : ℕ) (nm : String) (p4 p6 : Option ℕ) : VMRec :=
  { pk := pk, name := nm, status := "active", vcpus := (1, 1), memory := none,
    disk := none, cluster := none, cfUuid := some "W", cfHost := some "h",
    cfType := none, tags := [], primaryIp4 := p4, primaryIp6 := p6 }

/-- C2: primary-address exclusivity and idempotence of `_set_primary_ips`.
On a store with distinct keys where each candidate address is primary on
at most one record, after reconciliation of the record keyed `vmPk` with
candidates `p4` and `p6`, that record holds both candidates as its
primaries, every other record holds neither (the previous holder of a
stolen address had its primary for that family cleared), and a second
run with the same candidates performs no write: it returns the store
unchanged with an empty saved-pk list. -/
theorem primary_ip_exclusive_idempotent (store : List VMRec) (vmPk p4 p6 : ℕ)
    (vm0 : VMRec) (hN : (store.map VMRec.pk).Nodup)
    (hfind : store.find? (fun r => r.pk == vmPk) = some vm0)
    (hu4 : ∀ r ∈ store, ∀ s ∈ store, r.primaryIp4 = some p4 →
      s.primaryIp4 = some p4 → r = s)
    (hu6 : ∀ r ∈ store, ∀ s ∈ store, r.primaryIp6 = some p6 →
      s.primaryIp6 = some p6 → r = s) :
    ∃ vmF : VMRec,
      (set_primary_ips store vmPk (some p4) (some p6)).1.find?
          (fun r => r.pk == vmPk) = some vmF
      ∧ vmF.primaryIp4 = some p4
      ∧ vmF.primaryIp6 = some p6
      ∧ (∀ r ∈ (set_primary_ips store vmPk (some p4) (some p6)).1,
          r.pk ≠ vm0.pk → r.primaryIp4 ≠ some p4 ∧ r.primaryIp6 ≠ some p6)
      ∧ set_primary_ips (set_primary_ips store vmPk (some p4) (some p6)).1
          vmPk (some p4) (some p6)
          = ((set_primary_ips store vmPk (some p4) (some p6)).1, []) := by
  obtain ⟨vmF, h1, h2, h3, _, _, _, _, h8, h9⟩ :=
    set_primary_ips_shape store vmPk (some p4) (some p6) vm0 hN hfind
  have h2' : vmF.primaryIp4 = some p4 := by
    rw [h2]
    rfl
  have h3' : vmF.primaryIp6 = some p6 := by
    rw [h3]
    rfl
  refine ⟨vmF, h1, h2', h3', ?_, ?_⟩
  · intro r hr hne
    exact ⟨h8 p4 rfl hu4 r hr hne, h9 p6 rfl hu6 r hr hne⟩
  · exact set_primary_ips_noop _ vmPk _ _ vmF h1 (Or.inr h2'.symm) (Or.inr h3'.symm)

/-- C2 witness: a two-record store where record 1 currently holds both
candidate addresses as primaries and record 2 is reconciled with them. -/
theorem primary_ip_exclusive_idempotent_witness :
    ∃ vmF : VMRec,
      (set_primary_ips [mkVMW 1 "r1" (some 99) (some 77), mkVMW 2 "r2" none none]
          2 (some 99) (some 77)).1.find? (fun r => r.pk == 2) = some vmF
      ∧ vmF.primaryIp4 = some 99
      ∧ vmF.primaryIp6 = some 77
      ∧ (∀ r ∈ (set_primary_ips [mkVMW 1 "r1" (some 99) (some 77),
            mkVMW 2 "r2" none none] 2 (some 99) (some 77)).1,
          r.pk ≠ (mkVMW 2 "r2" none none).pk →
            r.primaryIp4 ≠ some 99 ∧ r.primaryIp6 ≠ some 77)
      ∧ set_primary_ips (set_primary_ips [mkVMW 1 "r1" (some 99) (some 77),
            mkVMW 2 "r2" none none] 2 (some 99) (some 77)).1 2 (some 99) (some 77)
          = ((set_primary_ips [mkVMW 1 "r1" (some 99) (some 77),
              mkVMW 2 "r2" none none] 2 (some 99) (some 77)).1, []) :=
  primary_ip_exclusive_idempotent
    [mkVMW 1 "r1" (some 99) (some 77), mkVMW 2 "r2" none none] 2 99 77
    (mkVMW 2 "r2" none none) (by decide) (by decide) (by decide) (by decide)

/- ===================== C10: no-candidate frame effect ===================== -/

/-- C10: frame effect of `_set_primary_ips`. The reconciled record's own
primary of each family becomes the candidate when one is present and is
otherwise left exactly as it was (a pass never clears a record's own
primary); a family with no candidate is untouched on every record in the
store; and when neither family's primary would change the call saves
nothing, returning the store unchanged with an empty saved-pk list. -/
theorem primary_ip_no_candidate_frame (store : List VMRec) (vmPk : ℕ)
    (ip4 ip6 : Option ℕ) (vm0 : VMRec) (hN : (store.map VMRec.pk).Nodup)
    (hfind : store.find? (fun r => r.pk == vmPk) = some vm0) :
    ∃ vmF : VMRec,
      (set_primary_ips store vmPk ip4 ip6).1.find? (fun r => r.pk == vmPk) = some vmF
      ∧ vmF.primaryIp4 = ip4.or vm0.primaryIp4
      ∧ vmF.primaryIp6 = ip6.or vm0.primaryIp6
      ∧ (ip4 = none →
          (set_primary_ips store vmPk ip4 ip6).1.map VMRec.primaryIp4
            = store.map VMRec.primaryIp4)
      ∧ (ip6 = none →
          (set_primary_ips store vmPk ip4 ip6).1.map VMRec.primaryIp6
            = store.map VMRec.primaryIp6)
      ∧ ((ip4 = none ∨ ip4 = vm0.primaryIp4) → (ip6 = none ∨ ip6 = vm0.primaryIp6) →
          set_primary_ips store vmPk ip4 ip6 = (store, [])) := by
  obtain ⟨vmF, h1, h2, h3, h4, h5, h6, _, _, _⟩ :=
    set_primary_ips_shape store vmPk ip4 ip6 vm0 hN hfind
  exact ⟨vmF, h1, h2, h3, h4, h5, h6⟩

/-- C10 witness: a two-record store reconciled with no candidate in
either family; the call leaves both primary columns untouched. -/
theorem primary_ip_no_candidate_frame_witness :
    ∃ vmF : VMRec,
      (set_primary_ips [mkVMW 4 "s1" (some 8) none, mkVMW 5 "s2" (some 3) (some 9)]
          5 none none).1.find? (fun r => r.pk == 5) = some vmF
      ∧ vmF.primaryIp4 = Option.or none (mkVMW 5 "s2" (some 3) (some 9)).primaryIp4
      ∧ vmF.primaryIp6 = Option.or none (mkVMW 5 "s2" (some 3) (some 9)).primaryIp6
      ∧ ((none : Option ℕ) = none →
          (set_primary_ips [mkVMW 4 "s1" (some 8) none,
              mkVMW 5 "s2" (some 3) (some 9)] 5 none none).1.map VMRec.primaryIp4
            = [mkVMW 4 "s1" (some 8) none,
               mkVMW 5 "s2" (some 3) (some 9)].map VMRec.primaryIp4)
      ∧ ((none : Option ℕ) = none →
          (set_primary_ips [mkVMW 4 "s1" (some 8) none,
              mkVMW 5 "s2" (some 3) (some 9)] 5 none none).1.map VMRec.primaryIp6
            = [mkVMW 4 "s1" (some 8) none,
               mkVMW 5 "s2" (some 3) (some 9)].map VMRec.primaryIp6)
      ∧ (((none : Option ℕ) = none
            ∨ (none : Option ℕ) = (mkVMW 5 "s2" (some 3) (some 9)).primaryIp4) →
         ((none : Option ℕ) = none
            ∨ (none : Option ℕ) = (mkVMW 5 "s2" (some 3) (some 9)).primaryIp6) →
          set_primary_ips [mkVMW 4 "s1" (some 8) none,
              mkVMW 5 "s2" (some 3) (some 9)] 5 none none
            = ([mkVMW 4 "s1" (some 8) none, mkVMW 5 "s2" (some 3) (some 9)], [])) :=
  primary_ip_no_candidate_frame
    [mkVMW 4 "s1" (some 8) none, mkVMW 5 "s2" (some 3) (some 9)] 5 none none
    (mkVMW 5 "s2" (some 3) (some 9)) (by decide) (by decide)

end IncusSync
